import Mathlib

/-!
# Shutter control (raspberry/shuttercontrol/shuttercontrol.c)

A shallow embedding of the Raspberry Pi side of the roller-shutter controller:
the i2cbridge transport (`i2cbridge_init`, `i2cbridge_send`), the command channel
(`I2C_command`), the actuator helpers, the per-channel switch state machine
(`store_switch_state`, `adjust_switch_state`) and the control loop (`main`).

Conventions.
* C `char`, `int` and `long` values are kept as mathematical integers (`Int`); the
  bytes of a bridge response are naturals in `0..255`.  Whether plain `char` is
  signed depends on the platform (it is unsigned on ARM Linux, the Raspberry Pi);
  the world records it in `char_unsigned`, and a value returned through the return
  type `char` is converted with `plain_char`.
* Global state (`switch_state`, `switch_lastchange`), the clock and everything the
  program does to the outside (bridge transactions, `printf`, `exit`) is carried
  in an explicit `World` record.
-/

namespace Shutter

/-! ## Data model -/

/-- Modelled from the spec: the request kinds of `i2cbridge.h` (the header is not
among the sources; the names are the ones used by `client_unix.c`). -/
inductive I2CBRIDGE_CMD
  | READ8
  | READ16
  | WRITE8
  | WRITE16
deriving DecidableEq

/-- Modelled from the spec: the response status codes of `i2cbridge.h` (the header
is not among the sources; the names are the ones used by `client_unix.c`). -/
inductive I2CBRIDGE_ERROR
  | OK
  | INTERNAL
  | COMMAND
  | ADDRESS
  | I2C
deriving DecidableEq

/-- The part of `struct i2cbridge_request` that `i2cbridge_send` fills from its
arguments: command kind, slave address and register.  The two data bytes of the
request are a copy of the caller's buffer and are not recorded. -/
structure Request where
  cmd : I2CBRIDGE_CMD
  addr : Nat
  reg : Nat
deriving DecidableEq

/-- The record `struct i2cbridge_response`: a status and two data bytes, in the
order in which `memcpy` puts them into `result[0]`, `result[1]`. -/
structure Response where
  status : I2CBRIDGE_ERROR
  data0 : Nat
  data1 : Nat
deriving DecidableEq

/-- One invocation of `I2C_command(addr, command, data)`. -/
structure Call where
  addr : Int
  command : Int
  data : Int
deriving DecidableEq

/-- The lines the program writes with `printf`. -/
inductive Printed
  | giving_up
  | locking (idx : Int)
  | shutting_off (idx : Int)
  | changing (idx state : Int)
  | unknown_shutter_state (state : Int)
  | tick (i : Nat)
  | manual_mode (active : Bool)
  | switch_status (idx sw : Int)
deriving DecidableEq

/-- Program state and observable effects.
* `now` is the reading of `current_millis()`; it is held fixed during one call of
  `adjust_switch_state` and advanced by the caller between polls.
* `switch_state`, `switch_lastchange` are the two global arrays.
* `calls` records every invocation of `I2C_command`, `sent` every completed
  `i2cbridge_send` transaction, `stdout` every `printf`, oldest first.
* `exited` is set by `exit`.
* `char_unsigned` tells whether plain `char` is unsigned on the platform the
  program is built for; nothing changes it. -/
structure World where
  now : Int
  switch_state : List Int
  switch_lastchange : List Int
  calls : List Call
  sent : List Request
  stdout : List Printed
  exited : Option Int
  char_unsigned : Bool
deriving DecidableEq

def I2C_ADDR_CONTROLLER : Int := 0x21
def I2C_ADDR_MANUAL : Int := 0x22
def I2C_ERR_INVALIDARGUMENT : Int := -2

def SWITCH_UP : Int := 1
def SWITCH_NEUTRAL : Int := 3
def SWITCH_DOWN : Int := 2
def SWITCH_LOCKED : Int := 0
def SWITCH_ERR : Int := -1
def SWITCH_ERR_OUTOFBOUNDS : Int := -2

def SHUTTER_ERR_OUTOFBOUNDS : Int := -2
def SHUTTER_OFF : Int := 0
def SHUTTER_UP : Int := 1
def SHUTTER_DOWN : Int := 2

def LED_PATTERN_OFF : Int := 0x00
def LED_PATTERN_SLOW : Int := 0x01
def LED_PATTERN_FAST : Int := 0x02
def LED_PATTERN_ON : Int := 0x03

def MANUAL_MODE_ON : Int := 1
def MANUAL_MODE_OFF : Int := 2

/-- Conversion of an `int` value to plain `char`, as it happens when a function with
return type `char` returns it or a `char` variable is initialised with it: the value
is reduced modulo 256 into `0..255` where plain `char` is unsigned and into
`-128..127` where it is signed. -/
def plain_char (char_unsigned : Bool) (x : Int) : Int :=
  if char_unsigned then x % 256 else (x + 128) % 256 - 128

/-- Reading of the clock, `current_millis()`.  `long` is taken wide enough for a
millisecond timestamp. -/
def current_millis (w : World) : Int := w.now

/-- Effect of `printf`. -/
def printf (p : Printed) (w : World) : World :=
  { w with stdout := w.stdout ++ [p] }

/-! ## Transport link: `i2cbridge_init`, `i2cbridge_send` over the socket calls -/

/-- How a call that touches the socket ends: it returns a value, it ends the
process with `exit(code)`, or the recorded outcomes of the socket calls are used
up while the call is still inside its retry loop. -/
inductive Outcome (α : Type)
  | returned (a : α)
  | exited (code : Int)
  | pending
deriving DecidableEq

/-- The outcomes of the socket calls still to come, one list per call, each in
call order.  `true` means the call succeeded, `false` that it returned `-1`;
a `recv` either fails (`none`) or fills the response record (`some r`). -/
structure Link where
  sockets : List Bool
  connects : List Bool
  sends : List Bool
  recvs : List (Option Response)
deriving DecidableEq

/-- Body of `i2cbridge_init` (lines 36-52): `socket()`, then `connect()`; either
failure ends the process with `exit(-1)`.  Returns the outcomes left over. -/
def i2cbridge_init (sockets connects : List Bool) : Outcome (List Bool × List Bool) :=
  match sockets with
  | [] => .pending
  | false :: _ => .exited (-1)
  | true :: sockets =>
    match connects with
    | [] => .pending
    | false :: _ => .exited (-1)
    | true :: connects => .returned (sockets, connects)

/-- The loop of `i2cbridge_send` (lines 73-89), by recursion on the outcomes of the
`send` calls: every pass through `restart:` and through the inner `while` begins
with one `send`.  A failed `send` or `recv` calls `i2cbridge_init` and goes round
again; a `recv` that delivers a response ends the call with that response. -/
def i2cbridge_send_loop :
    List Bool → List (Option Response) → List Bool → List Bool → Outcome (Response × Link)
  | [], _, _, _ => .pending
  | false :: sends, recvs, sockets, connects =>
    match i2cbridge_init sockets connects with
    | .pending => .pending
    | .exited code => .exited code
    | .returned (sockets, connects) => i2cbridge_send_loop sends recvs sockets connects
  | true :: sends, recvs, sockets, connects =>
    match recvs with
    | [] => .pending
    | none :: recvs =>
      match i2cbridge_init sockets connects with
      | .pending => .pending
      | .exited code => .exited code
      | .returned (sockets, connects) => i2cbridge_send_loop sends recvs sockets connects
    | some res :: recvs => .returned (res, ⟨sockets, connects, sends, recvs⟩)

/-- The function `i2cbridge_send` (lines 63-90) on a link: what it returns is
`res.status` together with the two bytes copied from `res.data`. -/
def i2cbridge_send (l : Link) : Outcome (Response × Link) :=
  i2cbridge_send_loop l.sends l.recvs l.sockets l.connects

/-! ## Command channel: `I2C_command` -/

/-- A call `i2cbridge_send(cmd, addr, reg, result)` that returns, as `I2C_command`
sees it: the broker's answer to the transaction (the `k`-th transaction of the run
gets `broker k`) is the returned status and the new content of `result`, and the
transaction is recorded in `sent`. -/
def i2cbridge_transaction (broker : Nat → Response) (cmd : I2CBRIDGE_CMD) (addr reg : Nat)
    (w : World) : (I2CBRIDGE_ERROR × (Nat × Nat)) × World :=
  let res := broker w.sent.length
  ((res.status, (res.data0, res.data1)), { w with sent := w.sent ++ [⟨cmd, addr, reg⟩] })

/-- The parity loop `for (c = 0; v; c++) v &= v-1;` (lines 109-110); returns the
final `c`. -/
def parity_loop (v c : Nat) : Nat :=
  if h : v = 0 then c else parity_loop (v &&& (v - 1)) (c + 1)
termination_by v
decreasing_by exact lt_of_le_of_lt Nat.and_le_right (Nat.sub_lt (Nat.pos_of_ne_zero h) Nat.one_pos)

/-- C's `~` on an `int` (two's complement). -/
def c_not (x : Int) : Int := -x - 1

/-- The test `result[0] == ~result[1]` (line 128): both `unsigned char` operands
are promoted to `int` before `~` and `==` are applied. -/
def echo_check (result : Nat × Nat) : Bool :=
  decide ((result.1 : Int) = c_not (result.2 : Int))

/-- The loop `while (--hops) { ... }` (lines 122-130).  The first argument `n` is
the value `--hops` is about to produce, i.e. `hops = n + 1` on entry to the loop
test.  Returns the final value of `hops`, the content of `result` and the world. -/
def I2C_while (broker : Nat → Response) (addr send : Nat) :
    Nat → Nat × Nat → World → Nat × (Nat × Nat) × World
  | 0, result, w => (0, result, w)
  | n + 1, _, w =>
    let r := i2cbridge_transaction broker .READ16 addr send w
    if r.1.1 ≠ .OK then I2C_while broker addr send n r.1.2 r.2
    else if echo_check r.1.2 then (n + 1, r.1.2, r.2)
    else I2C_while broker addr send n r.1.2 r.2

/-- The byte built in lines 104-114: `(command << 4) + data` with the parity of its
set bits in the top bit.  Only called after the range check. -/
def I2C_encode (command data : Int) : Nat :=
  let send : Nat := ((command.toNat <<< 4) + data.toNat) % 256
  let c := parity_loop send 0
  let c := c &&& 1
  (send + (c <<< 7)) % 256

/-- The function `I2C_command` (lines 94-136).  `result` is uninitialised in C; it
starts here as `(0, 0)` and is overwritten by the first transaction. -/
def I2C_command (broker : Nat → Response) (addr command data : Int) (w : World) :
    Int × World :=
  let w := { w with calls := w.calls ++ [⟨addr, command, data⟩] }
  if command < 0 ∨ command > 0x07 then (I2C_ERR_INVALIDARGUMENT, w)
  else if data < 0 ∨ data > 0x0f then (I2C_ERR_INVALIDARGUMENT, w)
  else
    let send := I2C_encode command data
    let hops : Nat := 20
    let r := I2C_while broker (addr % 256).toNat send (hops - 1) (0, 0) w
    let w := if r.1 = 0 then printf .giving_up r.2.2 else r.2.2
    ((r.2.1.1 : Int), w)

/-! ## Devices behind the command channel -/

/-- The function `I3C_reset_manual` (lines 140-142). -/
def I3C_reset_manual (broker : Nat → Response) (w : World) : World :=
  (I2C_command broker I2C_ADDR_MANUAL 0x4 0x0 w).2

/-- The function `read_switch_state` (lines 160-170); it returns `char`, and the
`int` result of `I2C_command` is first stored in the `char` variable `state`. -/
def read_switch_state (broker : Nat → Response) (idx : Int) (w : World) : Int × World :=
  if idx < 1 ∨ idx > 4 then (plain_char w.char_unsigned SWITCH_ERR_OUTOFBOUNDS, w)
  else
    let r := I2C_command broker I2C_ADDR_MANUAL 0x3 idx w
    let state := plain_char w.char_unsigned r.1
    (state, r.2)

/-- The function `beep` (lines 176-178); `pattern & 0xf` is `pattern % 16`. -/
def beep (broker : Nat → Response) (pattern : Int) (w : World) : World :=
  (I2C_command broker I2C_ADDR_MANUAL 0x1 (pattern % 16) w).2

/-- The function `set_manual_mode_led` (lines 189-191). -/
def set_manual_mode_led (broker : Nat → Response) (pattern : Int) (w : World) : World :=
  (I2C_command broker I2C_ADDR_MANUAL 0x2 pattern w).2

/-- The function `get_manual_mode` (lines 193-195); it returns `char`. -/
def get_manual_mode (broker : Nat → Response) (w : World) : Int × World :=
  let r := I2C_command broker I2C_ADDR_MANUAL 0x5 0 w
  (plain_char w.char_unsigned r.1, r.2)

/-- The function `set_shutter_state` (lines 219-244).  It returns `char`: the value
the caller gets for `return SHUTTER_ERR_OUTOFBOUNDS` is the conversion of `-2` to
plain `char`, and `return 0` gives 0.  The `default:` branch of the switch prints
and calls `exit(-1)`. -/
def set_shutter_state (broker : Nat → Response) (idx state : Int) (w : World) : Int × World :=
  if idx < 1 ∨ idx > 4 then (plain_char w.char_unsigned SHUTTER_ERR_OUTOFBOUNDS, w)
  else if state < 0 ∨ state > 2 then (plain_char w.char_unsigned SHUTTER_ERR_OUTOFBOUNDS, w)
  else if state = SHUTTER_OFF then (0, (I2C_command broker I2C_ADDR_CONTROLLER 0x1 (idx - 1) w).2)
  else if state = SHUTTER_UP then (0, (I2C_command broker I2C_ADDR_CONTROLLER 0x2 (idx - 1) w).2)
  else if state = SHUTTER_DOWN then (0, (I2C_command broker I2C_ADDR_CONTROLLER 0x3 (idx - 1) w).2)
  else (-1, { printf (.unknown_shutter_state state) w with exited := some (-1) })

/-- The function `stop_all_shutters` (lines 249-251). -/
def stop_all_shutters (broker : Nat → Response) (w : World) : World :=
  (I2C_command broker I2C_ADDR_CONTROLLER 0x0 0x0 w).2

/-! ## Switch state machine -/

/-- The function `clear_stored_switch_state` (lines 260-267). -/
def clear_stored_switch_state (w : World) : World :=
  let t := current_millis w
  { w with switch_state := List.replicate 4 SWITCH_NEUTRAL,
           switch_lastchange := List.replicate 4 t }

/-- The function `store_switch_state` (lines 274-284).  Array cell `idx-1` is list
position `(idx - 1).toNat`; the callers pass `idx` in `1..4`. -/
def store_switch_state (idx state : Int) (w : World) : Int × World :=
  let old_state := w.switch_state.getD (idx - 1).toNat 0
  if old_state = state then (0, w)
  else
    (old_state,
      { w with switch_lastchange := w.switch_lastchange.set (idx - 1).toNat (current_millis w),
               switch_state := w.switch_state.set (idx - 1).toNat state })

/-- Lines 316-335 of `adjust_switch_state`: store the new state and, if that was a
change, command the shutter.  `lastchange` is the elapsed time computed on entry. -/
def adjust_switch_state_commit (broker : Nat → Response) (idx state lastchange : Int)
    (w : World) : World :=
  let delay : Int := 2 * 1000
  let r := store_switch_state idx state w
  let st := r.1
  let w := r.2
  if st ≠ 0 then
    if lastchange > delay then
      let w := printf (.shutting_off idx) w
      let w := (set_shutter_state broker idx SHUTTER_OFF w).2
      (store_switch_state idx SWITCH_NEUTRAL w).2
    else
      let w := printf (.changing idx state) w
      if state = SWITCH_NEUTRAL then (set_shutter_state broker idx SHUTTER_OFF w).2
      else if state = SWITCH_UP then (set_shutter_state broker idx SHUTTER_UP w).2
      else if state = SWITCH_DOWN then (set_shutter_state broker idx SHUTTER_DOWN w).2
      else w
  else w

/-- The function `adjust_switch_state` (lines 290-336). -/
def adjust_switch_state (broker : Nat → Response) (idx state : Int) (w : World) : World :=
  let delay : Int := 2 * 1000
  let rundelay : Int := 60 * 1000
  let lastchange := current_millis w - w.switch_lastchange.getD (idx - 1).toNat 0
  if lastchange < rundelay then
    if state = SWITCH_NEUTRAL ∧ lastchange > delay then w
    else if state ≠ SWITCH_NEUTRAL ∧ w.switch_state.getD (idx - 1).toNat 0 = state
        ∧ lastchange > delay then
      beep broker 0x1 (printf (.locking idx) w)
    else adjust_switch_state_commit broker idx state lastchange w
  else adjust_switch_state_commit broker idx state lastchange w

/-! ## The process: calls of `i2cbridge_send` that may not return

The functions above describe a call in which every `i2cbridge_send` returns.  A
call of `i2cbridge_send` can also end the process (`exit(-1)` in `i2cbridge_init`,
reached from the reconnect of lines 76 and 82) or stay in its retry loop for ever.
The functions below follow the same source lines with that taken into account; the
environment is `bridge`, where `bridge k` is the outcome of the call of
`i2cbridge_send` made after `k` completed transactions. -/

/-- How a piece of the program ends: it returns a value, the process ends with
`exit(code)`, or it never gets to its end.  Each case carries the world as it is at
that point. -/
inductive Run (α : Type)
  | returned (a : α) (w : World)
  | exited (code : Int) (w : World)
  | pending (w : World)

/-- The world at the end of a run. -/
def Run.world {α : Type} : Run α → World
  | .returned _ w => w
  | .exited _ w => w
  | .pending w => w

/-- Sequencing: the rest of the program runs only if the first part returns. -/
def Run.bind {α β : Type} (r : Run α) (f : α → World → Run β) : Run β :=
  match r with
  | .returned a w => f a w
  | .exited code w => .exited code w
  | .pending w => .pending w

/-- A call `i2cbridge_send(cmd, addr, reg, result)` (lines 63-90) in the process:
it returns the status and the two bytes of the response received, or ends the
process, or does not return. -/
def i2cbridge_call (bridge : Nat → Outcome Response) (cmd : I2CBRIDGE_CMD) (addr reg : Nat)
    (w : World) : Run (I2CBRIDGE_ERROR × (Nat × Nat)) :=
  match bridge w.sent.length with
  | .returned res =>
    .returned (res.status, (res.data0, res.data1))
      { w with sent := w.sent ++ [⟨cmd, addr, reg⟩] }
  | .exited code => .exited code { w with exited := some code }
  | .pending => .pending w

/-- The loop `while (--hops) { ... }` (lines 122-130) in the process; the arguments
are those of `I2C_while`, the value returned is the final `hops` and `result`. -/
def I2C_while_run (bridge : Nat → Outcome Response) (addr send : Nat) :
    Nat → Nat × Nat → World → Run (Nat × (Nat × Nat))
  | 0, result, w => .returned (0, result) w
  | n + 1, _, w =>
    match i2cbridge_call bridge .READ16 addr send w with
    | .returned r w =>
      if r.1 ≠ .OK then I2C_while_run bridge addr send n r.2 w
      else if echo_check r.2 then .returned (n + 1, r.2) w
      else I2C_while_run bridge addr send n r.2 w
    | .exited code w => .exited code w
    | .pending w => .pending w

/-- The function `I2C_command` (lines 94-136) in the process. -/
def I2C_command_run (bridge : Nat → Outcome Response) (addr command data : Int) (w : World) :
    Run Int :=
  let w := { w with calls := w.calls ++ [⟨addr, command, data⟩] }
  if command < 0 ∨ command > 0x07 then .returned I2C_ERR_INVALIDARGUMENT w
  else if data < 0 ∨ data > 0x0f then .returned I2C_ERR_INVALIDARGUMENT w
  else
    let send := I2C_encode command data
    let hops : Nat := 20
    (I2C_while_run bridge (addr % 256).toNat send (hops - 1) (0, 0) w).bind fun r w =>
      let w := if r.1 = 0 then printf .giving_up w else w
      .returned (r.2.1 : Int) w

/-- The function `I3C_reset_manual` (lines 140-142) in the process. -/
def I3C_reset_manual_run (bridge : Nat → Outcome Response) (w : World) : Run Unit :=
  (I2C_command_run bridge I2C_ADDR_MANUAL 0x4 0x0 w).bind fun _ w => .returned () w

/-- The function `read_switch_state` (lines 160-170) in the process. -/
def read_switch_state_run (bridge : Nat → Outcome Response) (idx : Int) (w : World) :
    Run Int :=
  if idx < 1 ∨ idx > 4 then .returned (plain_char w.char_unsigned SWITCH_ERR_OUTOFBOUNDS) w
  else
    (I2C_command_run bridge I2C_ADDR_MANUAL 0x3 idx w).bind fun r w =>
      let state := plain_char w.char_unsigned r
      .returned state w

/-- The function `beep` (lines 176-178) in the process. -/
def beep_run (bridge : Nat → Outcome Response) (pattern : Int) (w : World) : Run Unit :=
  (I2C_command_run bridge I2C_ADDR_MANUAL 0x1 (pattern % 16) w).bind fun _ w => .returned () w

/-- The function `set_manual_mode_led` (lines 189-191) in the process. -/
def set_manual_mode_led_run (bridge : Nat → Outcome Response) (pattern : Int) (w : World) :
    Run Unit :=
  (I2C_command_run bridge I2C_ADDR_MANUAL 0x2 pattern w).bind fun _ w => .returned () w

/-- The function `get_manual_mode` (lines 193-195) in the process. -/
def get_manual_mode_run (bridge : Nat → Outcome Response) (w : World) : Run Int :=
  (I2C_command_run bridge I2C_ADDR_MANUAL 0x5 0 w).bind fun r w =>
    .returned (plain_char w.char_unsigned r) w

/-- The function `set_shutter_state` (lines 219-244) in the process. -/
def set_shutter_state_run (bridge : Nat → Outcome Response) (idx state : Int) (w : World) :
    Run Int :=
  if idx < 1 ∨ idx > 4 then .returned (plain_char w.char_unsigned SHUTTER_ERR_OUTOFBOUNDS) w
  else if state < 0 ∨ state > 2 then
    .returned (plain_char w.char_unsigned SHUTTER_ERR_OUTOFBOUNDS) w
  else if state = SHUTTER_OFF then
    (I2C_command_run bridge I2C_ADDR_CONTROLLER 0x1 (idx - 1) w).bind fun _ w => .returned 0 w
  else if state = SHUTTER_UP then
    (I2C_command_run bridge I2C_ADDR_CONTROLLER 0x2 (idx - 1) w).bind fun _ w => .returned 0 w
  else if state = SHUTTER_DOWN then
    (I2C_command_run bridge I2C_ADDR_CONTROLLER 0x3 (idx - 1) w).bind fun _ w => .returned 0 w
  else .exited (-1) { printf (.unknown_shutter_state state) w with exited := some (-1) }

/-- The function `stop_all_shutters` (lines 249-251) in the process. -/
def stop_all_shutters_run (bridge : Nat → Outcome Response) (w : World) : Run Unit :=
  (I2C_command_run bridge I2C_ADDR_CONTROLLER 0x0 0x0 w).bind fun _ w => .returned () w

/-- Lines 316-335 of `adjust_switch_state` in the process. -/
def adjust_switch_state_commit_run (bridge : Nat → Outcome Response)
    (idx state lastchange : Int) (w : World) : Run Unit :=
  let delay : Int := 2 * 1000
  let r := store_switch_state idx state w
  let st := r.1
  let w := r.2
  if st ≠ 0 then
    if lastchange > delay then
      let w := printf (.shutting_off idx) w
      (set_shutter_state_run bridge idx SHUTTER_OFF w).bind fun _ w =>
        .returned () (store_switch_state idx SWITCH_NEUTRAL w).2
    else
      let w := printf (.changing idx state) w
      if state = SWITCH_NEUTRAL then
        (set_shutter_state_run bridge idx SHUTTER_OFF w).bind fun _ w => .returned () w
      else if state = SWITCH_UP then
        (set_shutter_state_run bridge idx SHUTTER_UP w).bind fun _ w => .returned () w
      else if state = SWITCH_DOWN then
        (set_shutter_state_run bridge idx SHUTTER_DOWN w).bind fun _ w => .returned () w
      else .returned () w
  else .returned () w

/-- The function `adjust_switch_state` (lines 290-336) in the process. -/
def adjust_switch_state_run (bridge : Nat → Outcome Response) (idx state : Int) (w : World) :
    Run Unit :=
  let delay : Int := 2 * 1000
  let rundelay : Int := 60 * 1000
  let lastchange := current_millis w - w.switch_lastchange.getD (idx - 1).toNat 0
  if lastchange < rundelay then
    if state = SWITCH_NEUTRAL ∧ lastchange > delay then .returned () w
    else if state ≠ SWITCH_NEUTRAL ∧ w.switch_state.getD (idx - 1).toNat 0 = state
        ∧ lastchange > delay then
      beep_run bridge 0x1 (printf (.locking idx) w)
    else adjust_switch_state_commit_run bridge idx state lastchange w
  else adjust_switch_state_commit_run bridge idx state lastchange w

/-! ## Control loop: `main` -/

/-- One pass of the inner `for` loop of `main` (lines 362-365) for channel `idx` in
tick `i`; `clock i idx` is the reading of the clock during that call of
`adjust_switch_state`. -/
def main_poll (bridge : Nat → Outcome Response) (clock : Nat → Int → Int) (i : Nat)
    (idx : Int) (w : World) : Run Unit :=
  (read_switch_state_run bridge idx w).bind fun sw w =>
    let w := printf (.switch_status idx sw) w
    adjust_switch_state_run bridge idx sw { w with now := clock i idx }

/-- The inner `for` loop of `main` (lines 361-366) over the channels still to do. -/
def main_polls (bridge : Nat → Outcome Response) (clock : Nat → Int → Int) (i : Nat) :
    List Int → World → Run Unit
  | [], w => .returned () w
  | idx :: idxs, w =>
    (main_poll bridge clock i idx w).bind fun _ w => main_polls bridge clock i idxs w

/-- The body of the `while` loop of `main` up to `I3C_reset_manual()` (lines
351-368). -/
def main_tick (bridge : Nat → Outcome Response) (clock : Nat → Int → Int) (i : Nat)
    (w : World) : Run Unit :=
  let w := printf (.tick i) w
  (get_manual_mode_run bridge w).bind fun manual w =>
    let w := printf (.manual_mode (decide (manual = 1))) w
    (if manual = MANUAL_MODE_ON then set_manual_mode_led_run bridge LED_PATTERN_ON w
     else set_manual_mode_led_run bridge LED_PATTERN_OFF w).bind fun _ w =>
    (main_polls bridge clock i [1, 2, 3, 4] w).bind fun _ w =>
    I3C_reset_manual_run bridge w

/-- The `while` loop of `main` (lines 350-371), by recursion on the values the
successive `sleep(1)` calls at its end return: a non-zero value leaves the loop.
When the recorded values are used up the loop is still running. -/
def main_loop (bridge : Nat → Outcome Response) (clock : Nat → Int → Int) :
    List Int → Nat → World → Run Unit
  | [], _, w => .pending w
  | s :: sleeps, i, w =>
    match main_tick bridge clock i w with
    | .returned _ w =>
      if s ≠ 0 then .returned () w else main_loop bridge clock sleeps (i + 1) w
    | .exited code w => .exited code w
    | .pending w => .pending w

/-- The function `main` (lines 339-376).  `l` holds the outcomes of the `socket` and
`connect` calls of the initial `i2cbridge_init`, `t0` is the clock reading taken by
`clear_stored_switch_state`, `sleeps` the values returned by the `sleep(1)` calls of
the loop (the value of the `sleep(1)` of line 345 is not used). -/
def main (bridge : Nat → Outcome Response) (clock : Nat → Int → Int) (l : Link) (t0 : Int)
    (sleeps : List Int) (w : World) : Run Int :=
  match i2cbridge_init l.sockets l.connects with
  | .pending => .pending w
  | .exited code => .exited code { w with exited := some code }
  | .returned _ =>
    (stop_all_shutters_run bridge w).bind fun _ w =>
    (beep_run bridge 0x05 (clear_stored_switch_state { w with now := t0 })).bind fun _ w =>
    (set_manual_mode_led_run bridge LED_PATTERN_FAST w).bind fun _ w =>
    (set_manual_mode_led_run bridge LED_PATTERN_OFF w).bind fun _ w =>
    (main_loop bridge clock sleeps 0 w).bind fun _ w =>
    (stop_all_shutters_run bridge w).bind fun _ w =>
    .returned 0 w

/-! ## Observing a run -/

/-- One poll of channel `idx`: the clock reads `p.1` and the raw switch position
read for the channel is `p.2`. -/
def poll (broker : Nat → Response) (idx : Int) (w : World) (p : Int × Int) : World :=
  adjust_switch_state broker idx p.2 { w with now := p.1 }

/-- A sequence of polls of channel `idx`, given as (time, raw position) pairs. -/
def polls (broker : Nat → Response) (idx : Int) (ps : List (Int × Int)) (w : World) : World :=
  ps.foldl (poll broker idx) w

/-- The polls of a switch held at position `p`: one poll at each of the times `ts`,
every one reading `p`. -/
def held (p : Int) (ts : List Int) : List (Int × Int) :=
  ts.map (fun t => (t, p))

/-- A sequence of calls of `adjust_switch_state`, each given as (channel, clock
reading, raw position). -/
def adjusts (broker : Nat → Response) (steps : List (Int × Int × Int)) (w : World) : World :=
  steps.foldl (fun w s => adjust_switch_state broker s.1 s.2.2 { w with now := s.2.1 }) w

/-- The command `stop_all_shutters()` issues. -/
def all_stop : Call := ⟨I2C_ADDR_CONTROLLER, 0x0, 0x0⟩

/-- The commands sent to the shutter controller, oldest first. -/
def shutter_commands (w : World) : List Call :=
  w.calls.filter (fun c => c.addr = I2C_ADDR_CONTROLLER)

/-- The shutter commands that start a motor: opcode 2 (up) or 3 (down). -/
def motion_commands (w : World) : List Call :=
  w.calls.filter (fun c => c.addr = I2C_ADDR_CONTROLLER ∧ (c.command = 0x2 ∨ c.command = 0x3))

/-- The shutter command `set_shutter_state(idx, SHUTTER_OFF)` issues. -/
def shutter_off (idx : Int) : Call := ⟨I2C_ADDR_CONTROLLER, 0x1, idx - 1⟩

/-- The shutter command `set_shutter_state(idx, SHUTTER_UP)` issues. -/
def shutter_up (idx : Int) : Call := ⟨I2C_ADDR_CONTROLLER, 0x2, idx - 1⟩

/-- The shutter command `set_shutter_state(idx, SHUTTER_DOWN)` issues. -/
def shutter_down (idx : Int) : Call := ⟨I2C_ADDR_CONTROLLER, 0x3, idx - 1⟩

/-- The command `beep(0x1)` issues. -/
def lock_beep : Call := ⟨I2C_ADDR_MANUAL, 0x1, 0x1⟩

/-- Number of set bits among the low eight bits of `n`. -/
def popcount (n : Nat) : Nat :=
  ((List.range 8).filter (fun i => n.testBit i)).length

/-- A world with four channels stored as `s` since time `t` and nothing done yet, on
a platform with unsigned plain `char` (the Raspberry Pi). -/
def initial_world (s t : Int) : World :=
  ⟨t, List.replicate 4 s, List.replicate 4 t, [], [], [], none, true⟩

/-! ## Theorems -/

/-! ### The command channel: auxiliary facts -/

/-- The echo test of line 128 fails for every content of `result`: the left side
is a promoted byte, hence non-negative, the right side is `~` of a non-negative
`int`, hence negative. -/
theorem echo_check_false (result : Nat × Nat) : echo_check result = false := by
  unfold echo_check c_not
  rw [decide_eq_false_iff_not]
  omega

/-- The retry loop in closed form: started with `hops = n + 1` it performs `n`
transactions, leaves `hops` at `0` and `result` at the bytes of the last reply. -/
theorem I2C_while_eq (broker : Nat → Response) (addr send : Nat) :
    ∀ (n : Nat) (result : Nat × Nat) (w : World),
      I2C_while broker addr send n result w =
        (0,
         (if n = 0 then result
          else ((broker (w.sent.length + n - 1)).data0, (broker (w.sent.length + n - 1)).data1)),
         { w with sent := w.sent ++ List.replicate n ⟨.READ16, addr, send⟩ }) := by
  intro n
  induction n with
  | zero => intro result w; simp [I2C_while]
  | succ n ih =>
    intro result w
    have step : I2C_while broker addr send (n + 1) result w =
        I2C_while broker addr send n
          (i2cbridge_transaction broker .READ16 addr send w).1.2
          (i2cbridge_transaction broker .READ16 addr send w).2 := by
      rw [I2C_while]
      simp only [echo_check_false]
      split <;> simp
    rw [step, ih]
    simp only [i2cbridge_transaction, List.length_append, List.length_singleton]
    refine Prod.ext rfl (Prod.ext ?_ ?_)
    · by_cases h : n = 0
      · subst h; simp
      · simp only [h, if_false]
        have e : w.sent.length + 1 + n - 1 = w.sent.length + (n + 1) - 1 := by omega
        rw [e]; simp
    · simp [List.replicate_succ]

/-- Clearing the lowest set bit with `v & (v-1)` removes one set bit. -/
theorem popcount_step : ∀ v < 128, v = 0 ∨ popcount (v &&& (v - 1)) + 1 = popcount v := by
  decide

/-- The parity loop adds the number of set bits of `v` to `c`. -/
theorem parity_loop_eq : ∀ (v c : Nat), v < 128 → parity_loop v c = c + popcount v := by
  intro v
  induction v using Nat.strong_induction_on with
  | _ v ih =>
    intro c hv
    rw [parity_loop]
    by_cases h : v = 0
    · subst h; simp [popcount]
    · rw [dif_neg h]
      have hlt : v &&& (v - 1) < v :=
        lt_of_le_of_lt Nat.and_le_right (Nat.sub_lt (Nat.pos_of_ne_zero h) Nat.one_pos)
      rw [ih _ hlt (c + 1) (lt_trans hlt hv)]
      rcases popcount_step v hv with h0 | h1
      · exact absurd h0 h
      · omega

/-- The byte arithmetic of lines 104-114 on all 128 valid arguments. -/
theorem I2C_encode_table : ∀ c < 8, ∀ d < 16,
    ((c <<< 4) + d) % 256 = 16 * c + d ∧
    ((16 * c + d + (((0 + popcount (16 * c + d)) &&& 1) <<< 7)) % 256
      = 16 * c + d + 128 * (popcount (16 * c + d) % 2)) := by
  decide

/-- The encoded byte for arguments in range. -/
theorem I2C_encode_eq (command data : Nat) (hc : command ≤ 7) (hd : data ≤ 15) :
    I2C_encode command data
      = 16 * command + data + 128 * (popcount (16 * command + data) % 2) := by
  have t := I2C_encode_table command (by omega) data (by omega)
  unfold I2C_encode
  simp only [Int.toNat_ofNat]
  rw [t.1, parity_loop_eq _ _ (by omega), t.2]

/-- The function `I2C_command` in closed form for arguments in range. -/
theorem I2C_command_valid (broker : Nat → Response) (addr command data : Int) (w : World)
    (hc0 : 0 ≤ command) (hc : command ≤ 7) (hd0 : 0 ≤ data) (hd : data ≤ 15) :
    I2C_command broker addr command data w =
      (((broker (w.sent.length + 18)).data0 : Int),
       { w with
          calls := w.calls ++ [⟨addr, command, data⟩],
          sent := w.sent ++ List.replicate 19
            ⟨.READ16, (addr % 256).toNat, I2C_encode command data⟩,
          stdout := w.stdout ++ [.giving_up] }) := by
  unfold I2C_command
  have h1 : ¬ (command < 0 ∨ command > 0x07) := by omega
  have h2 : ¬ (data < 0 ∨ data > 0x0f) := by omega
  simp only [h1, h2, if_false, I2C_while_eq, printf]
  simp

/-- The function `I2C_command` in closed form for arguments out of range. -/
theorem I2C_command_invalid (broker : Nat → Response) (addr command data : Int) (w : World)
    (h : command < 0 ∨ 7 < command ∨ data < 0 ∨ 15 < data) :
    I2C_command broker addr command data w =
      (I2C_ERR_INVALIDARGUMENT, { w with calls := w.calls ++ [⟨addr, command, data⟩] }) := by
  unfold I2C_command
  by_cases h1 : command < 0 ∨ command > 0x07
  · simp only [h1, if_true]
  · have h2 : data < 0 ∨ data > 0x0f := by omega
    simp only [h1, h2, if_false, if_true]

/-! ### C1-C3, C7-C9: the command channel -/

/-- C1 (the code departs from the claim): the echo test `result[0] == ~result[1]`,
evaluated on promoted `int` operands, rejects the complementary pair `0x0f`, `0xf0`
and in fact every pair of bytes. -/
theorem echo_check_never_accepts :
    15 + 240 = 255 ∧ echo_check (15, 240) = false ∧
      ∀ b0 b1 : Nat, echo_check (b0, b1) = false :=
  ⟨rfl, echo_check_false _, fun _ _ => echo_check_false _⟩

/-- C2 (the code departs from the claim): against a broker whose first reply is
status OK with the complementary bytes `1`, `254` and whose later replies are bus
errors with bytes `0`, `0`, the call `I2C_command(0x22, 3, 1)` performs 19
transactions, prints the giving-up line and returns `0`, not `1`. -/
theorem I2C_command_first_success_ignored :
    (I2C_command (fun k => if k = 0 then ⟨.OK, 1, 254⟩ else ⟨.I2C, 0, 0⟩)
        I2C_ADDR_MANUAL 3 1 (initial_world SWITCH_NEUTRAL 0)).1 = 0 ∧
    (I2C_command (fun k => if k = 0 then ⟨.OK, 1, 254⟩ else ⟨.I2C, 0, 0⟩)
        I2C_ADDR_MANUAL 3 1 (initial_world SWITCH_NEUTRAL 0)).2.sent.length = 19 ∧
    (I2C_command (fun k => if k = 0 then ⟨.OK, 1, 254⟩ else ⟨.I2C, 0, 0⟩)
        I2C_ADDR_MANUAL 3 1 (initial_world SWITCH_NEUTRAL 0)).2.stdout = [.giving_up] := by
  rw [I2C_command_valid _ _ _ _ _ (by decide) (by decide) (by decide) (by decide)]
  simp [initial_world]

/-- C3 (the code departs from the claim): for arguments in range and every broker,
`I2C_command` performs exactly 19 transactions, one fewer than `hops = 20`, and
then prints the giving-up line. -/
theorem I2C_command_nineteen_tries (broker : Nat → Response) (addr command data : Int)
    (w : World) (hc0 : 0 ≤ command) (hc : command ≤ 7) (hd0 : 0 ≤ data) (hd : data ≤ 15) :
    (I2C_command broker addr command data w).2.sent.length = w.sent.length + 19 ∧
    (I2C_command broker addr command data w).2.stdout = w.stdout ++ [.giving_up] := by
  rw [I2C_command_valid broker addr command data w hc0 hc hd0 hd]
  simp

/-- Witness for `I2C_command_nineteen_tries`: a broker that always reports a bus
error, command 3 with operand 1. -/
theorem I2C_command_nineteen_tries_witness :
    (I2C_command (fun _ => ⟨.I2C, 0, 0⟩) I2C_ADDR_MANUAL 3 1
        (initial_world SWITCH_NEUTRAL 0)).2.sent.length
      = (initial_world SWITCH_NEUTRAL 0).sent.length + 19 ∧
    (I2C_command (fun _ => ⟨.I2C, 0, 0⟩) I2C_ADDR_MANUAL 3 1
        (initial_world SWITCH_NEUTRAL 0)).2.stdout
      = (initial_world SWITCH_NEUTRAL 0).stdout ++ [.giving_up] :=
  I2C_command_nineteen_tries (fun _ => ⟨.I2C, 0, 0⟩) I2C_ADDR_MANUAL 3 1
    (initial_world SWITCH_NEUTRAL 0) (by decide) (by decide) (by decide) (by decide)

/-- C7: for every opcode in `0..7` and operand in `0..15` the parity loop ends with
the number of set bits of `16*opcode + operand`, and `I2C_command` transmits, in
every transaction it makes (at least one), the register byte
`16*opcode + operand + 128 * (popcount (16*opcode + operand) mod 2)`: the low seven
bits are the command and the top bit is their parity. -/
theorem I2C_command_register_byte (broker : Nat → Response) (addr : Int) (opcode operand : Nat)
    (w : World) (hc : opcode ≤ 7) (hd : operand ≤ 15) :
    parity_loop (16 * opcode + operand) 0 = popcount (16 * opcode + operand) ∧
    I2C_encode opcode operand % 128 = 16 * opcode + operand ∧
    I2C_encode opcode operand / 128 = popcount (16 * opcode + operand) % 2 ∧
    ∃ k, 0 < k ∧
      (I2C_command broker addr opcode operand w).2.sent =
        w.sent ++ List.replicate k
          ⟨.READ16, (addr % 256).toNat,
            16 * opcode + operand + 128 * (popcount (16 * opcode + operand) % 2)⟩ := by
  refine ⟨?_, ?_, ?_, 19, by decide, ?_⟩
  · rw [parity_loop_eq _ _ (by omega)]; simp
  · rw [I2C_encode_eq _ _ hc hd]; omega
  · rw [I2C_encode_eq _ _ hc hd]; omega
  · rw [I2C_command_valid broker addr opcode operand w (by omega) (by omega) (by omega)
      (by omega), I2C_encode_eq _ _ hc hd]

/-- Witness for `I2C_command_register_byte`: opcode 3, operand 1 is sent as `0xb1`. -/
theorem I2C_command_register_byte_witness :
    parity_loop (16 * 3 + 1) 0 = popcount (16 * 3 + 1) ∧
    I2C_encode (3 : Nat) (1 : Nat) % 128 = 16 * 3 + 1 ∧
    I2C_encode (3 : Nat) (1 : Nat) / 128 = popcount (16 * 3 + 1) % 2 ∧
    ∃ k, 0 < k ∧
      (I2C_command (fun _ => ⟨.OK, 1, 254⟩) I2C_ADDR_MANUAL (3 : Nat) (1 : Nat)
          (initial_world SWITCH_NEUTRAL 0)).2.sent =
        (initial_world SWITCH_NEUTRAL 0).sent ++ List.replicate k
          ⟨.READ16, (I2C_ADDR_MANUAL % 256).toNat,
            16 * 3 + 1 + 128 * (popcount (16 * 3 + 1) % 2)⟩ :=
  I2C_command_register_byte (fun _ => ⟨.OK, 1, 254⟩) I2C_ADDR_MANUAL 3 1
    (initial_world SWITCH_NEUTRAL 0) (by decide) (by decide)

/-- C8: with an opcode outside `0..7` or an operand outside `0..15`, `I2C_command`
returns `I2C_ERR_INVALIDARGUMENT` and performs no transaction; with both in range it
does not return that error. -/
theorem I2C_command_rejects_out_of_range (broker : Nat → Response) (addr command data : Int)
    (w : World) :
    ((command < 0 ∨ 7 < command ∨ data < 0 ∨ 15 < data) →
      (I2C_command broker addr command data w).1 = I2C_ERR_INVALIDARGUMENT ∧
      (I2C_command broker addr command data w).2.sent = w.sent) ∧
    ((0 ≤ command ∧ command ≤ 7 ∧ 0 ≤ data ∧ data ≤ 15) →
      (I2C_command broker addr command data w).1 ≠ I2C_ERR_INVALIDARGUMENT) := by
  constructor
  · intro h
    rw [I2C_command_invalid broker addr command data w h]
    exact ⟨rfl, rfl⟩
  · rintro ⟨hc0, hc, hd0, hd⟩
    rw [I2C_command_valid broker addr command data w hc0 hc hd0 hd]
    simp only [I2C_ERR_INVALIDARGUMENT]
    omega

/-- Witness for `I2C_command_rejects_out_of_range`: opcode 8 is rejected without a
transaction, opcode 3 with operand 1 is not rejected. -/
theorem I2C_command_rejects_out_of_range_witness :
    ((I2C_command (fun _ => ⟨.OK, 1, 254⟩) I2C_ADDR_MANUAL 8 0
        (initial_world SWITCH_NEUTRAL 0)).1 = I2C_ERR_INVALIDARGUMENT ∧
     (I2C_command (fun _ => ⟨.OK, 1, 254⟩) I2C_ADDR_MANUAL 8 0
        (initial_world SWITCH_NEUTRAL 0)).2.sent = (initial_world SWITCH_NEUTRAL 0).sent) ∧
    (I2C_command (fun _ => ⟨.OK, 1, 254⟩) I2C_ADDR_MANUAL 3 1
        (initial_world SWITCH_NEUTRAL 0)).1 ≠ I2C_ERR_INVALIDARGUMENT :=
  ⟨(I2C_command_rejects_out_of_range (fun _ => ⟨.OK, 1, 254⟩) I2C_ADDR_MANUAL 8 0
      (initial_world SWITCH_NEUTRAL 0)).1 (by decide),
   (I2C_command_rejects_out_of_range (fun _ => ⟨.OK, 1, 254⟩) I2C_ADDR_MANUAL 3 1
      (initial_world SWITCH_NEUTRAL 0)).2 (by decide)⟩

/-- C9 (the code departs from the claim): against a broker that answers every
transaction with a bus error carrying the bytes `1`, `0`, `read_switch_state(1)`
prints the giving-up line and returns `1`, the first byte of the failed reply, which
is the value `SWITCH_UP`; the same value is returned where plain `char` is signed. -/
theorem read_switch_state_returns_failed_byte :
    (read_switch_state (fun _ => ⟨.I2C, 1, 0⟩) 1 (initial_world SWITCH_NEUTRAL 0)).1
      = SWITCH_UP ∧
    (read_switch_state (fun _ => ⟨.I2C, 1, 0⟩) 1 (initial_world SWITCH_NEUTRAL 0)).2.stdout
      = [.giving_up] ∧
    (read_switch_state (fun _ => ⟨.I2C, 1, 0⟩) 1
        { initial_world SWITCH_NEUTRAL 0 with char_unsigned := false }).1 = SWITCH_UP := by
  have h : ¬ ((1 : Int) < 1 ∨ (1 : Int) > 4) := by decide
  unfold read_switch_state
  simp only [h, if_false]
  rw [I2C_command_valid _ _ _ _ _ (by decide) (by decide) (by decide) (by decide),
    I2C_command_valid _ _ _ _ _ (by decide) (by decide) (by decide) (by decide)]
  simp [initial_world, SWITCH_UP, plain_char]

/-! ### C10: the transport link -/

/-- When every `socket` and `connect` call succeeds, `i2cbridge_init` does not end
the process. -/
theorem i2cbridge_init_no_exit (sockets connects : List Bool)
    (hs : ∀ b ∈ sockets, b = true) (hc : ∀ b ∈ connects, b = true) (code : Int) :
    i2cbridge_init sockets connects ≠ .exited code ∧
    ∀ s c, i2cbridge_init sockets connects = .returned (s, c) →
      (∀ b ∈ s, b = true) ∧ (∀ b ∈ c, b = true) := by
  unfold i2cbridge_init
  cases sockets with
  | nil => simp
  | cons a sockets =>
    have ha : a = true := hs a (by simp)
    subst ha
    cases connects with
    | nil => simp
    | cons b connects =>
      have hb : b = true := hc b (by simp)
      subst hb
      simp only [ne_eq, reduceCtorEq, not_false_eq_true, Outcome.returned.injEq, Prod.mk.injEq,
        true_and]
      rintro s c ⟨rfl, rfl⟩
      exact ⟨fun x hx => hs x (by simp [hx]), fun x hx => hc x (by simp [hx])⟩

/-- The retry loop does not end the process while every reconnect succeeds. -/
theorem i2cbridge_send_loop_no_exit (code : Int) :
    ∀ (sends : List Bool) (recvs : List (Option Response)) (sockets connects : List Bool),
      (∀ b ∈ sockets, b = true) → (∀ b ∈ connects, b = true) →
      i2cbridge_send_loop sends recvs sockets connects ≠ .exited code := by
  intro sends
  induction sends with
  | nil => intro recvs sockets connects _ _; simp [i2cbridge_send_loop]
  | cons a sends ih =>
    intro recvs sockets connects hs hc
    have hi := i2cbridge_init_no_exit sockets connects hs hc
    cases a with
    | false =>
      rw [i2cbridge_send_loop]
      cases h : i2cbridge_init sockets connects with
      | pending => simp
      | exited c => exact absurd h (hi c).1
      | returned p =>
        obtain ⟨s, c⟩ := p
        have := (hi code).2 s c h
        exact ih recvs s c this.1 this.2
    | true =>
      cases recvs with
      | nil => simp [i2cbridge_send_loop]
      | cons r recvs =>
        cases r with
        | some res => simp [i2cbridge_send_loop]
        | none =>
          rw [i2cbridge_send_loop]
          cases h : i2cbridge_init sockets connects with
          | pending => simp
          | exited c => exact absurd h (hi c).1
          | returned p =>
            obtain ⟨s, c⟩ := p
            have := (hi code).2 s c h
            exact ih recvs s c this.1 this.2

/-- What the retry loop returns is one of the responses delivered by `recv`. -/
theorem i2cbridge_send_loop_returns_received (res : Response) (l : Link) :
    ∀ (sends : List Bool) (recvs : List (Option Response)) (sockets connects : List Bool),
      i2cbridge_send_loop sends recvs sockets connects = .returned (res, l) →
      some res ∈ recvs := by
  intro sends
  induction sends with
  | nil => intro recvs sockets connects h; simp [i2cbridge_send_loop] at h
  | cons a sends ih =>
    intro recvs sockets connects h
    cases a with
    | false =>
      rw [i2cbridge_send_loop] at h
      cases hi : i2cbridge_init sockets connects with
      | pending => rw [hi] at h; simp at h
      | exited c => rw [hi] at h; simp at h
      | returned p =>
        obtain ⟨s, c⟩ := p
        rw [hi] at h
        exact ih recvs s c h
    | true =>
      cases recvs with
      | nil => simp [i2cbridge_send_loop] at h
      | cons r recvs =>
        cases r with
        | some res2 =>
          simp only [i2cbridge_send_loop, Outcome.returned.injEq, Prod.mk.injEq] at h
          simp [h.1]
        | none =>
          rw [i2cbridge_send_loop] at h
          cases hi : i2cbridge_init sockets connects with
          | pending => rw [hi] at h; simp at h
          | exited c => rw [hi] at h; simp at h
          | returned p =>
            obtain ⟨s, c⟩ := p
            rw [hi] at h
            exact List.mem_cons_of_mem _ (ih recvs s c h)

/-- After `n` failed `send` calls, each followed by a successful reconnect, a
successful `send` and `recv` end the loop with the response received. -/
theorem i2cbridge_send_loop_retries (res : Response) (sends : List Bool)
    (recvs : List (Option Response)) (sockets connects : List Bool) :
    ∀ n : Nat,
      i2cbridge_send_loop (List.replicate n false ++ true :: sends) (some res :: recvs)
          (List.replicate n true ++ sockets) (List.replicate n true ++ connects)
        = .returned (res, ⟨sockets, connects, sends, recvs⟩) := by
  intro n
  induction n with
  | zero => simp [i2cbridge_send_loop]
  | succ n ih =>
    simp only [List.replicate_succ, List.cons_append]
    rw [i2cbridge_send_loop]
    simp only [i2cbridge_init]
    exact ih

/-- C10 (the claim fails as stated): a `send` that fails, followed by a reconnect
whose `connect` fails, ends the process with `exit(-1)`. -/
theorem i2cbridge_send_exits_on_failed_connect :
    i2cbridge_send ⟨[true], [false], [false], []⟩ = .exited (-1) := by
  decide

/-- C10 (amended): `i2cbridge_send` does not end the process as long as every
`socket` and `connect` call of `i2cbridge_init` succeeds; whatever it returns is a
response delivered by `recv`; after a failed `send` or a failed `recv` it calls
`i2cbridge_init` once and sends the request again, any number of times, and returns
the first response received; a reconnect whose `socket` or `connect` call fails,
after a failed `send` or after a failed `recv`, ends the process with `exit(-1)`. -/
theorem i2cbridge_send_reconnects (l : Link) :
    ((∀ b ∈ l.sockets, b = true) → (∀ b ∈ l.connects, b = true) →
        ∀ code, i2cbridge_send l ≠ .exited code) ∧
    (∀ res l2, i2cbridge_send l = .returned (res, l2) → some res ∈ l.recvs) ∧
    (∀ (n : Nat) (res : Response),
        i2cbridge_send ⟨List.replicate n true ++ l.sockets, List.replicate n true ++ l.connects,
            List.replicate n false ++ true :: l.sends, some res :: l.recvs⟩
          = .returned (res, l)) ∧
    i2cbridge_send ⟨true :: l.sockets, true :: l.connects, true :: l.sends, none :: l.recvs⟩
      = i2cbridge_send l ∧
    i2cbridge_send ⟨true :: l.sockets, true :: l.connects, false :: l.sends, l.recvs⟩
      = i2cbridge_send l ∧
    i2cbridge_send ⟨true :: l.sockets, false :: l.connects, false :: l.sends, l.recvs⟩
      = .exited (-1) ∧
    i2cbridge_send ⟨false :: l.sockets, l.connects, false :: l.sends, l.recvs⟩
      = .exited (-1) ∧
    i2cbridge_send ⟨true :: l.sockets, false :: l.connects, true :: l.sends, none :: l.recvs⟩
      = .exited (-1) ∧
    i2cbridge_send ⟨false :: l.sockets, l.connects, true :: l.sends, none :: l.recvs⟩
      = .exited (-1) := by
  refine ⟨fun hs hc code => i2cbridge_send_loop_no_exit code _ _ _ _ hs hc,
    fun res l2 h => i2cbridge_send_loop_returns_received res l2 _ _ _ _ h,
    fun n res => i2cbridge_send_loop_retries res _ _ _ _ n, ?_, ?_, ?_, ?_, ?_, ?_⟩ <;>
  simp [i2cbridge_send, i2cbridge_send_loop, i2cbridge_init]

/-- Witness for `i2cbridge_send_reconnects`: one failed `send`, a successful
reconnect, then a successful `send` and `recv`. -/
theorem i2cbridge_send_reconnects_witness :
    (∀ code, i2cbridge_send ⟨[true], [true], [false, true], [some ⟨.OK, 1, 254⟩]⟩
        ≠ .exited code) ∧
    some (⟨.OK, 1, 254⟩ : Response) ∈ [some (⟨.OK, 1, 254⟩ : Response)] :=
  ⟨(i2cbridge_send_reconnects ⟨[true], [true], [false, true], [some ⟨.OK, 1, 254⟩]⟩).1
      (by decide) (by decide),
   (i2cbridge_send_reconnects ⟨[true], [true], [false, true], [some ⟨.OK, 1, 254⟩]⟩).2.1
      ⟨.OK, 1, 254⟩ ⟨[], [], [], []⟩ (by decide)⟩

/-! ### The switch state machine: auxiliary facts -/

/-- What `I2C_command` leaves untouched, and what it records. -/
theorem I2C_command_frame (broker : Nat → Response) (addr command data : Int) (w : World) :
    (I2C_command broker addr command data w).2.now = w.now ∧
    (I2C_command broker addr command data w).2.switch_state = w.switch_state ∧
    (I2C_command broker addr command data w).2.switch_lastchange = w.switch_lastchange ∧
    (I2C_command broker addr command data w).2.exited = w.exited ∧
    (I2C_command broker addr command data w).2.calls = w.calls ++ [⟨addr, command, data⟩] := by
  by_cases h : command < 0 ∨ 7 < command ∨ data < 0 ∨ 15 < data
  · rw [I2C_command_invalid broker addr command data w h]
    exact ⟨rfl, rfl, rfl, rfl, rfl⟩
  · rw [I2C_command_valid broker addr command data w (by omega) (by omega) (by omega) (by omega)]
    exact ⟨rfl, rfl, rfl, rfl, rfl⟩

@[simp]
theorem I2C_command_now (broker : Nat → Response) (addr command data : Int) (w : World) :
    (I2C_command broker addr command data w).2.now = w.now :=
  (I2C_command_frame broker addr command data w).1

@[simp]
theorem I2C_command_switch_state (broker : Nat → Response) (addr command data : Int)
    (w : World) : (I2C_command broker addr command data w).2.switch_state = w.switch_state :=
  (I2C_command_frame broker addr command data w).2.1

@[simp]
theorem I2C_command_switch_lastchange (broker : Nat → Response)
    (addr command data : Int) (w : World) :
    (I2C_command broker addr command data w).2.switch_lastchange = w.switch_lastchange :=
  (I2C_command_frame broker addr command data w).2.2.1

@[simp]
theorem I2C_command_exited (broker : Nat → Response) (addr command data : Int)
    (w : World) : (I2C_command broker addr command data w).2.exited = w.exited :=
  (I2C_command_frame broker addr command data w).2.2.2.1

@[simp]
theorem I2C_command_calls (broker : Nat → Response) (addr command data : Int)
    (w : World) :
    (I2C_command broker addr command data w).2.calls = w.calls ++ [⟨addr, command, data⟩] :=
  (I2C_command_frame broker addr command data w).2.2.2.2

/-- A stored value other than `0` sits inside the array. -/
theorem getD_ne_zero_lt (l : List Int) (i : Nat) (h : l.getD i 0 ≠ 0) : i < l.length := by
  by_contra hlt
  exact h (List.getD_eq_default _ _ (by omega))

/-- Reading back the cell just written. -/
theorem getD_set_self (l : List Int) (i : Nat) (a : Int) (h : i < l.length) :
    (l.set i a).getD i 0 = a := by
  simp [List.getD_eq_getElem?_getD, h]

/-- The function `store_switch_state` when the state is the stored one. -/
theorem store_switch_state_same (idx state : Int) (w : World)
    (h : w.switch_state.getD (idx - 1).toNat 0 = state) :
    store_switch_state idx state w = (0, w) := by
  unfold store_switch_state
  exact if_pos h

/-- The function `store_switch_state` when the state differs from the stored one. -/
theorem store_switch_state_change (idx state : Int) (w : World)
    (h : w.switch_state.getD (idx - 1).toNat 0 ≠ state) :
    store_switch_state idx state w =
      (w.switch_state.getD (idx - 1).toNat 0,
        { w with switch_lastchange := w.switch_lastchange.set (idx - 1).toNat w.now,
                 switch_state := w.switch_state.set (idx - 1).toNat state }) := by
  unfold store_switch_state
  exact if_neg h

/-- The shutter command issued by `set_shutter_state` for arguments in range. -/
theorem set_shutter_state_valid (broker : Nat → Response) (idx state : Int) (w : World)
    (hidx : 1 ≤ idx ∧ idx ≤ 4) (hst : 0 ≤ state ∧ state ≤ 2) :
    set_shutter_state broker idx state w =
      (0, (I2C_command broker I2C_ADDR_CONTROLLER (state + 1) (idx - 1) w).2) := by
  have h1 : ¬ (idx < 1 ∨ idx > 4) := by omega
  have h2 : ¬ (state < 0 ∨ state > 2) := by omega
  unfold set_shutter_state
  simp only [h1, h2, if_false, SHUTTER_OFF, SHUTTER_UP, SHUTTER_DOWN]
  have h3 : state = 0 ∨ state = 1 ∨ state = 2 := by omega
  rcases h3 with h | h | h <;> subst h <;> simp

/-- Poll with no effect, first kind: a Neutral reading inside the lock window. -/
theorem adjust_switch_state_ignore (broker : Nat → Response) (idx : Int) (w : World)
    (h1 : w.now - w.switch_lastchange.getD (idx - 1).toNat 0 < 60000)
    (h2 : 2000 < w.now - w.switch_lastchange.getD (idx - 1).toNat 0) :
    adjust_switch_state broker idx SWITCH_NEUTRAL w = w := by
  unfold adjust_switch_state
  simp only [current_millis]
  rw [if_pos (by omega), if_pos ⟨trivial, by omega⟩]

/-- Poll inside the lock window with the switch held at the stored position: only
the beep. -/
theorem adjust_switch_state_lock (broker : Nat → Response) (idx state : Int) (w : World)
    (hs : state ≠ SWITCH_NEUTRAL) (hst : w.switch_state.getD (idx - 1).toNat 0 = state)
    (h1 : w.now - w.switch_lastchange.getD (idx - 1).toNat 0 < 60000)
    (h2 : 2000 < w.now - w.switch_lastchange.getD (idx - 1).toNat 0) :
    adjust_switch_state broker idx state w = beep broker 0x1 (printf (.locking idx) w) := by
  unfold adjust_switch_state
  simp only [current_millis]
  rw [if_pos (by omega), if_neg (fun h => hs h.1), if_pos ⟨hs, hst, by omega⟩]

/-- Outside the two lock-window rules `adjust_switch_state` is its second half. -/
theorem adjust_switch_state_eq_commit (broker : Nat → Response) (idx state : Int) (w : World)
    (h : 60000 ≤ w.now - w.switch_lastchange.getD (idx - 1).toNat 0 ∨
      w.now - w.switch_lastchange.getD (idx - 1).toNat 0 ≤ 2000 ∨
      (state ≠ SWITCH_NEUTRAL ∧ w.switch_state.getD (idx - 1).toNat 0 ≠ state)) :
    adjust_switch_state broker idx state w =
      adjust_switch_state_commit broker idx state
        (w.now - w.switch_lastchange.getD (idx - 1).toNat 0) w := by
  unfold adjust_switch_state
  simp only [current_millis]
  by_cases h1 : w.now - w.switch_lastchange.getD (idx - 1).toNat 0 < 60 * 1000
  · rw [if_pos h1, if_neg, if_neg]
    · rintro ⟨h3, h4, h5⟩
      rcases h with h | h | h
      · omega
      · omega
      · exact h.2 h4
    · rintro ⟨h3, h4⟩
      rcases h with h | h | h
      · omega
      · omega
      · exact h.1 h3
  · rw [if_neg h1]

/-- Poll with no effect, second kind: the reading equals the stored position and
the elapsed time is within the hold threshold or beyond the lock window. -/
theorem adjust_switch_state_unchanged (broker : Nat → Response) (idx state : Int) (w : World)
    (hst : w.switch_state.getD (idx - 1).toNat 0 = state)
    (h : w.now - w.switch_lastchange.getD (idx - 1).toNat 0 ≤ 2000 ∨
      60000 ≤ w.now - w.switch_lastchange.getD (idx - 1).toNat 0) :
    adjust_switch_state broker idx state w = w := by
  rw [adjust_switch_state_eq_commit broker idx state w (by omega)]
  simp only [adjust_switch_state_commit, store_switch_state_same idx state w hst]
  simp

/-- Poll that finds a changed reading past the hold threshold (and is not caught by
the lock window): the shutter is switched off and the stored position becomes
Neutral. -/
theorem adjust_switch_state_stop (broker : Nat → Response) (idx state : Int) (w : World)
    (hidx : 1 ≤ idx ∧ idx ≤ 4)
    (hne : w.switch_state.getD (idx - 1).toNat 0 ≠ state)
    (h0 : w.switch_state.getD (idx - 1).toNat 0 ≠ 0)
    (h2 : 2000 < w.now - w.switch_lastchange.getD (idx - 1).toNat 0)
    (h : 60000 ≤ w.now - w.switch_lastchange.getD (idx - 1).toNat 0 ∨ state ≠ SWITCH_NEUTRAL) :
    (adjust_switch_state broker idx state w).calls = w.calls ++ [shutter_off idx] ∧
    (adjust_switch_state broker idx state w).switch_state
      = w.switch_state.set (idx - 1).toNat SWITCH_NEUTRAL ∧
    (adjust_switch_state broker idx state w).switch_lastchange
      = w.switch_lastchange.set (idx - 1).toNat w.now ∧
    (adjust_switch_state broker idx state w).now = w.now := by
  have hlt := getD_ne_zero_lt _ _ h0
  rw [adjust_switch_state_eq_commit broker idx state w (by
    rcases h with h | h
    · exact Or.inl h
    · exact Or.inr (Or.inr ⟨h, hne⟩))]
  simp only [adjust_switch_state_commit, store_switch_state_change idx state w hne]
  rw [if_pos h0, if_pos (by omega), set_shutter_state_valid broker idx SHUTTER_OFF _ hidx
    (by decide)]
  by_cases hn : state = SWITCH_NEUTRAL
  · rw [store_switch_state_same]
    · subst hn
      simp [printf, shutter_off, SHUTTER_OFF]
    · simp only [I2C_command_switch_state, printf]
      rw [getD_set_self _ _ _ hlt, hn]
  · rw [store_switch_state_change]
    · simp [printf, shutter_off, SHUTTER_OFF]
    · simp only [I2C_command_switch_state, printf]
      rw [getD_set_self _ _ _ hlt]
      exact hn
/-- Poll that finds a changed reading within the hold threshold: the shutter command
matching the reading is issued and the reading is stored. -/
theorem adjust_switch_state_change (broker : Nat → Response) (idx state : Int) (w : World)
    (hidx : 1 ≤ idx ∧ idx ≤ 4)
    (hs : state = SWITCH_NEUTRAL ∨ state = SWITCH_UP ∨ state = SWITCH_DOWN)
    (hne : w.switch_state.getD (idx - 1).toNat 0 ≠ state)
    (h0 : w.switch_state.getD (idx - 1).toNat 0 ≠ 0)
    (h2 : w.now - w.switch_lastchange.getD (idx - 1).toNat 0 ≤ 2000) :
    (adjust_switch_state broker idx state w).calls
      = w.calls ++ [if state = SWITCH_NEUTRAL then shutter_off idx
                    else if state = SWITCH_UP then shutter_up idx else shutter_down idx] ∧
    (adjust_switch_state broker idx state w).switch_state
      = w.switch_state.set (idx - 1).toNat state ∧
    (adjust_switch_state broker idx state w).switch_lastchange
      = w.switch_lastchange.set (idx - 1).toNat w.now ∧
    (adjust_switch_state broker idx state w).now = w.now := by
  rw [adjust_switch_state_eq_commit broker idx state w (by omega)]
  simp only [adjust_switch_state_commit, store_switch_state_change idx state w hne]
  rw [if_pos h0, if_neg (by omega)]
  rcases hs with h | h | h <;> subst h <;>
    simp [set_shutter_state_valid broker idx _ _ hidx, printf, shutter_off, shutter_up,
      shutter_down, SHUTTER_OFF, SHUTTER_UP, SHUTTER_DOWN, SWITCH_NEUTRAL, SWITCH_UP, SWITCH_DOWN]

/-- The lock beep records one call to the manual-control device and nothing else
that the state machine reads. -/
theorem beep_lock_frame (broker : Nat → Response) (idx : Int) (w : World) :
    (beep broker 0x1 (printf (.locking idx) w)).calls = w.calls ++ [lock_beep] ∧
    (beep broker 0x1 (printf (.locking idx) w)).switch_state = w.switch_state ∧
    (beep broker 0x1 (printf (.locking idx) w)).switch_lastchange = w.switch_lastchange ∧
    (beep broker 0x1 (printf (.locking idx) w)).now = w.now := by
  simp [beep, printf, lock_beep]

/-- A poll that reads the stored position `p` (Up or Down) issues no shutter command
and leaves the stored state untouched. -/
theorem poll_held (broker : Nat → Response) (idx p t : Int) (w : World)
    (hp : p = SWITCH_UP ∨ p = SWITCH_DOWN)
    (hst : w.switch_state.getD (idx - 1).toNat 0 = p) :
    (poll broker idx w (t, p)).switch_state = w.switch_state ∧
    (poll broker idx w (t, p)).switch_lastchange = w.switch_lastchange ∧
    shutter_commands (poll broker idx w (t, p)) = shutter_commands w ∧
    motion_commands (poll broker idx w (t, p)) = motion_commands w := by
  have hpn : p ≠ SWITCH_NEUTRAL := by
    rcases hp with h | h <;> subst h <;> decide
  have e : poll broker idx w (t, p) = adjust_switch_state broker idx p { w with now := t } := rfl
  rw [e]
  by_cases h : t - w.switch_lastchange.getD (idx - 1).toNat 0 ≤ 2000 ∨
      60000 ≤ t - w.switch_lastchange.getD (idx - 1).toNat 0
  · rw [adjust_switch_state_unchanged broker idx p { w with now := t } hst h]
    exact ⟨rfl, rfl, rfl, rfl⟩
  · rw [adjust_switch_state_lock broker idx p { w with now := t } hpn hst
      (show t - w.switch_lastchange.getD (idx - 1).toNat 0 < 60000 by omega)
      (show 2000 < t - w.switch_lastchange.getD (idx - 1).toNat 0 by omega)]
    have hb := beep_lock_frame broker idx { w with now := t }
    refine ⟨hb.2.1, hb.2.2.1, ?_, ?_⟩
    · simp [shutter_commands, hb.1, lock_beep, I2C_ADDR_CONTROLLER, I2C_ADDR_MANUAL]
    · simp [motion_commands, hb.1, lock_beep, I2C_ADDR_CONTROLLER, I2C_ADDR_MANUAL]

/-- Any number of polls that read the stored position `p` (Up or Down) issue no
shutter command and leave the stored state untouched. -/
theorem polls_held (broker : Nat → Response) (idx p : Int)
    (hp : p = SWITCH_UP ∨ p = SWITCH_DOWN) :
    ∀ (ts : List Int) (w : World), w.switch_state.getD (idx - 1).toNat 0 = p →
      (polls broker idx (held p ts) w).switch_state = w.switch_state ∧
      (polls broker idx (held p ts) w).switch_lastchange = w.switch_lastchange ∧
      shutter_commands (polls broker idx (held p ts) w) = shutter_commands w ∧
      motion_commands (polls broker idx (held p ts) w) = motion_commands w := by
  intro ts
  induction ts with
  | nil => intro w _; exact ⟨rfl, rfl, rfl, rfl⟩
  | cons t ts ih =>
    intro w hst
    have h1 := poll_held broker idx p t w hp hst
    have h2 := ih (poll broker idx w (t, p)) (by rw [h1.1]; exact hst)
    simp only [polls, held, List.map_cons, List.foldl_cons] at h2 ⊢
    exact ⟨h2.1.trans h1.1, h2.2.1.trans h1.2.1, h2.2.2.1.trans h1.2.2.1,
      h2.2.2.2.trans h1.2.2.2⟩

/-- Running two poll sequences one after the other. -/
theorem polls_append (broker : Nat → Response) (idx : Int) (ps qs : List (Int × Int))
    (w : World) : polls broker idx (ps ++ qs) w = polls broker idx qs (polls broker idx ps w) := by
  simp [polls, List.foldl_append]

/-- A poll that reads Neutral while Neutral is stored does nothing. -/
theorem poll_neutral (broker : Nat → Response) (idx t : Int) (w : World)
    (hst : w.switch_state.getD (idx - 1).toNat 0 = SWITCH_NEUTRAL) :
    poll broker idx w (t, SWITCH_NEUTRAL) = { w with now := t } := by
  have e : poll broker idx w (t, SWITCH_NEUTRAL)
      = adjust_switch_state broker idx SWITCH_NEUTRAL { w with now := t } := rfl
  rw [e]
  by_cases h : t - w.switch_lastchange.getD (idx - 1).toNat 0 ≤ 2000 ∨
      60000 ≤ t - w.switch_lastchange.getD (idx - 1).toNat 0
  · exact adjust_switch_state_unchanged broker idx _ { w with now := t } hst h
  · exact adjust_switch_state_ignore broker idx { w with now := t }
      (show t - w.switch_lastchange.getD (idx - 1).toNat 0 < 60000 by omega)
      (show 2000 < t - w.switch_lastchange.getD (idx - 1).toNat 0 by omega)

/-- Any number of polls that read Neutral while Neutral is stored do nothing. -/
theorem polls_neutral (broker : Nat → Response) (idx : Int) :
    ∀ (ts : List Int) (w : World), w.switch_state.getD (idx - 1).toNat 0 = SWITCH_NEUTRAL →
      (polls broker idx (held SWITCH_NEUTRAL ts) w).calls = w.calls ∧
      (polls broker idx (held SWITCH_NEUTRAL ts) w).switch_state = w.switch_state ∧
      (polls broker idx (held SWITCH_NEUTRAL ts) w).switch_lastchange = w.switch_lastchange := by
  intro ts
  induction ts with
  | nil => intro w _; exact ⟨rfl, rfl, rfl⟩
  | cons t ts ih =>
    intro w hst
    have h2 := ih { w with now := t } hst
    simp only [polls, held, List.map_cons, List.foldl_cons] at h2 ⊢
    rw [poll_neutral broker idx t w hst]
    exact h2

/-- A poll that reads `p` (Up or Down) while Neutral is stored: past the hold
threshold it switches the shutter off and Neutral stays stored, within the hold
threshold it issues the motion command for `p` and stores `p`. -/
theorem poll_from_neutral (broker : Nat → Response) (idx p t : Int) (w : World)
    (hidx : 1 ≤ idx ∧ idx ≤ 4) (hp : p = SWITCH_UP ∨ p = SWITCH_DOWN)
    (hst : w.switch_state.getD (idx - 1).toNat 0 = SWITCH_NEUTRAL) :
    (2000 < t - w.switch_lastchange.getD (idx - 1).toNat 0 ∧
      (poll broker idx w (t, p)).switch_state.getD (idx - 1).toNat 0 = SWITCH_NEUTRAL ∧
      shutter_commands (poll broker idx w (t, p)) = shutter_commands w ++ [shutter_off idx] ∧
      motion_commands (poll broker idx w (t, p)) = motion_commands w) ∨
    (t - w.switch_lastchange.getD (idx - 1).toNat 0 ≤ 2000 ∧
      (poll broker idx w (t, p)).switch_state.getD (idx - 1).toNat 0 = p ∧
      shutter_commands (poll broker idx w (t, p)) = shutter_commands w ++
        [if p = SWITCH_UP then shutter_up idx else shutter_down idx] ∧
      motion_commands (poll broker idx w (t, p)) = motion_commands w ++
        [if p = SWITCH_UP then shutter_up idx else shutter_down idx]) := by
  have hpn : p ≠ SWITCH_NEUTRAL := by
    rcases hp with h | h <;> subst h <;> decide
  have hne : w.switch_state.getD (idx - 1).toNat 0 ≠ p := by rw [hst]; exact Ne.symm hpn
  have h0 : w.switch_state.getD (idx - 1).toNat 0 ≠ 0 := by rw [hst]; decide
  have hlt := getD_ne_zero_lt _ _ h0
  have e : poll broker idx w (t, p) = adjust_switch_state broker idx p { w with now := t } := rfl
  rw [e]
  by_cases h : t - w.switch_lastchange.getD (idx - 1).toNat 0 ≤ 2000
  · right
    have hc := adjust_switch_state_change broker idx p { w with now := t } hidx
      (Or.inr hp) hne h0 h
    refine ⟨h, ?_, ?_, ?_⟩
    · rw [hc.2.1]; exact getD_set_self _ _ _ hlt
    · rw [shutter_commands, hc.1]
      rcases hp with h | h <;> subst h <;>
        simp [shutter_commands, shutter_up, shutter_down, SWITCH_UP, SWITCH_DOWN, SWITCH_NEUTRAL]
    · rw [motion_commands, hc.1]
      rcases hp with h | h <;> subst h <;>
        simp [motion_commands, shutter_up, shutter_down, SWITCH_UP, SWITCH_DOWN, SWITCH_NEUTRAL]
  · left
    have hc := adjust_switch_state_stop broker idx p { w with now := t } hidx hne h0
      (show 2000 < t - w.switch_lastchange.getD (idx - 1).toNat 0 by omega) (Or.inr hpn)
    refine ⟨by omega, ?_, ?_, ?_⟩
    · rw [hc.2.1]; exact getD_set_self _ _ _ hlt
    · rw [shutter_commands, hc.1]
      simp [shutter_commands, shutter_off]
    · rw [motion_commands, hc.1]
      simp [motion_commands, shutter_off]

/-- A switch held at `p` (Up or Down) from a stored Neutral: the shutter commands of
the run are some number of Off commands followed by at most one motion command. -/
theorem polls_from_neutral (broker : Nat → Response) (idx p : Int)
    (hidx : 1 ≤ idx ∧ idx ≤ 4) (hp : p = SWITCH_UP ∨ p = SWITCH_DOWN) :
    ∀ (ts : List Int) (w : World), w.switch_state.getD (idx - 1).toNat 0 = SWITCH_NEUTRAL →
      ∃ (k : Nat) (b : Bool),
        shutter_commands (polls broker idx (held p ts) w) =
          shutter_commands w ++ List.replicate k (shutter_off idx) ++
            (if b then [if p = SWITCH_UP then shutter_up idx else shutter_down idx] else []) ∧
        motion_commands (polls broker idx (held p ts) w) =
          motion_commands w ++
            (if b then [if p = SWITCH_UP then shutter_up idx else shutter_down idx] else []) ∧
        (polls broker idx (held p ts) w).switch_state.getD (idx - 1).toNat 0 =
          (if b then p else SWITCH_NEUTRAL) := by
  intro ts
  induction ts with
  | nil => intro w hst; exact ⟨0, false, by simp [polls, held], by simp [polls, held], hst⟩
  | cons t ts ih =>
    intro w hst
    have hcons : polls broker idx (held p (t :: ts)) w
        = polls broker idx (held p ts) (poll broker idx w (t, p)) := rfl
    rw [hcons]
    rcases poll_from_neutral broker idx p t w hidx hp hst with ⟨_, h1, h2, h3⟩ | ⟨_, h1, h2, h3⟩
    · obtain ⟨k, b, e1, e2, e3⟩ := ih (poll broker idx w (t, p)) h1
      refine ⟨k + 1, b, ?_, ?_, e3⟩
      · rw [e1, h2]; simp [List.replicate_succ]
      · rw [e2, h3]
    · have hh := polls_held broker idx p hp ts (poll broker idx w (t, p)) h1
      refine ⟨0, true, ?_, ?_, ?_⟩
      · rw [hh.2.2.1, h2]; simp
      · rw [hh.2.2.2, h3]; simp
      · rw [hh.1]; simpa using h1
/-! ### C4-C6: lock timeout, held switch, scenario -/

/-- C4 (the claim fails as stated): channel 1 stored Up since time 0 and held Up;
the polls at 59000, 60000 and 61000 ms issue no shutter command at all and the
stored position stays Up. -/
theorem lock_timeout_held_switch_no_off :
    shutter_commands (polls (fun _ => ⟨.OK, 1, 254⟩) 1 (held SWITCH_UP [59000, 60000, 61000])
        (initial_world SWITCH_UP 0)) = [] ∧
    (polls (fun _ => ⟨.OK, 1, 254⟩) 1 (held SWITCH_UP [59000, 60000, 61000])
        (initial_world SWITCH_UP 0)).switch_state
      = [SWITCH_UP, SWITCH_UP, SWITCH_UP, SWITCH_UP] := by
  simp [polls, poll, held, adjust_switch_state, adjust_switch_state_commit, store_switch_state,
    set_shutter_state, beep, printf, initial_world, current_millis, shutter_commands,
    SWITCH_NEUTRAL, SWITCH_UP, I2C_ADDR_CONTROLLER, I2C_ADDR_MANUAL]

/-- C4 (amended): for a channel in `1..4` whose stored position `s` is Up or Down, at
a poll with elapsed time at least 60000 ms: if the raw position equals `s` the poll
does nothing; if the raw position `r` differs from `s` the poll issues exactly one
command, shutter Off for that channel, stores Neutral and sets the timestamp to the
time of the poll; and later polls that read Neutral issue no further command and
leave Neutral stored. -/
theorem lock_timeout_off_on_change (broker : Nat → Response) (idx s t : Int) (w : World)
    (hidx : 1 ≤ idx ∧ idx ≤ 4) (hs : s = SWITCH_UP ∨ s = SWITCH_DOWN)
    (hst : w.switch_state.getD (idx - 1).toNat 0 = s)
    (he : 60000 ≤ t - w.switch_lastchange.getD (idx - 1).toNat 0) :
    poll broker idx w (t, s) = { w with now := t } ∧
    ∀ r : Int, r ≠ s →
      ((poll broker idx w (t, r)).calls = w.calls ++ [shutter_off idx] ∧
       (poll broker idx w (t, r)).switch_state
          = w.switch_state.set (idx - 1).toNat SWITCH_NEUTRAL ∧
       (poll broker idx w (t, r)).switch_lastchange
          = w.switch_lastchange.set (idx - 1).toNat t) ∧
      ∀ ts : List Int,
        (polls broker idx (held SWITCH_NEUTRAL ts) (poll broker idx w (t, r))).calls
            = w.calls ++ [shutter_off idx] ∧
        (polls broker idx (held SWITCH_NEUTRAL ts) (poll broker idx w (t, r))).switch_state
            = w.switch_state.set (idx - 1).toNat SWITCH_NEUTRAL := by
  have h0 : w.switch_state.getD (idx - 1).toNat 0 ≠ 0 := by
    rw [hst]; rcases hs with h | h <;> subst h <;> decide
  have hlt := getD_ne_zero_lt _ _ h0
  refine ⟨adjust_switch_state_unchanged broker idx s { w with now := t } hst (Or.inr he), ?_⟩
  intro r hr
  have hc := adjust_switch_state_stop broker idx r { w with now := t } hidx
    (by rw [hst]; exact Ne.symm hr) h0
    (show 2000 < t - w.switch_lastchange.getD (idx - 1).toNat 0 by omega) (Or.inl he)
  have e : poll broker idx w (t, r) = adjust_switch_state broker idx r { w with now := t } := rfl
  rw [e]
  refine ⟨⟨hc.1, hc.2.1, hc.2.2.1⟩, fun ts => ?_⟩
  have hn := polls_neutral broker idx ts (adjust_switch_state broker idx r { w with now := t })
    (by rw [hc.2.1]; exact getD_set_self _ _ _ hlt)
  exact ⟨hn.1.trans hc.1, hn.2.1.trans hc.2.1⟩

/-- Witness for `lock_timeout_off_on_change`: channel 1 stored Up since time 0,
polled at 60000 ms. -/
theorem lock_timeout_off_on_change_witness :
    poll (fun _ => ⟨.OK, 1, 254⟩) 1 (initial_world SWITCH_UP 0) (60000, SWITCH_UP)
      = { initial_world SWITCH_UP 0 with now := 60000 } ∧
    (poll (fun _ => ⟨.OK, 1, 254⟩) 1 (initial_world SWITCH_UP 0) (60000, SWITCH_NEUTRAL)).calls
      = (initial_world SWITCH_UP 0).calls ++ [shutter_off 1] :=
  ⟨(lock_timeout_off_on_change (fun _ => ⟨.OK, 1, 254⟩) 1 SWITCH_UP 60000
      (initial_world SWITCH_UP 0) (by decide) (by decide) (by decide) (by decide)).1,
   ((lock_timeout_off_on_change (fun _ => ⟨.OK, 1, 254⟩) 1 SWITCH_UP 60000
      (initial_world SWITCH_UP 0) (by decide) (by decide) (by decide) (by decide)).2
      SWITCH_NEUTRAL (by decide)).1.1⟩

/-- C5 (the claim fails as stated): channel 1 stored Neutral since time 0 and held
Up at the polls of 5000 and 6000 ms: two shutter commands are issued, Off and then
Up. -/
theorem held_switch_two_shutter_commands :
    shutter_commands (polls (fun _ => ⟨.OK, 1, 254⟩) 1 (held SWITCH_UP [5000, 6000])
        (initial_world SWITCH_NEUTRAL 0)) = [shutter_off 1, shutter_up 1] := by
  simp [polls, poll, held, adjust_switch_state, adjust_switch_state_commit, store_switch_state,
    set_shutter_state, beep, printf, initial_world, current_millis, shutter_commands,
    shutter_off, shutter_up, SWITCH_NEUTRAL, SWITCH_UP, SWITCH_DOWN, SHUTTER_OFF, SHUTTER_UP,
    SHUTTER_DOWN, I2C_ADDR_CONTROLLER, I2C_ADDR_MANUAL]

/-- C5 (amended): for a channel in `1..4` whose stored position is Neutral and a
switch held at `p` (Up or Down) over any finite sequence of polls, the shutter
commands issued are some number of Off commands followed by at most one motion
command (the one for `p`); at most one motion command is issued in total; every
poll after the motion command issues no shutter command and leaves the stored
positions and timestamps untouched; and when the first poll comes within the hold
threshold (elapsed at most 2000 ms) the run issues exactly one shutter command. -/
theorem held_switch_one_motion_command (broker : Nat → Response) (idx p : Int) (w : World)
    (ts1 ts2 : List Int) (hidx : 1 ≤ idx ∧ idx ≤ 4) (hp : p = SWITCH_UP ∨ p = SWITCH_DOWN)
    (hst : w.switch_state.getD (idx - 1).toNat 0 = SWITCH_NEUTRAL) :
    (∃ (k : Nat) (b : Bool),
      shutter_commands (polls broker idx (held p (ts1 ++ ts2)) w) =
        shutter_commands w ++ List.replicate k (shutter_off idx) ++
          (if b then [if p = SWITCH_UP then shutter_up idx else shutter_down idx] else [])) ∧
    (motion_commands (polls broker idx (held p (ts1 ++ ts2)) w)).length
      ≤ (motion_commands w).length + 1 ∧
    ((motion_commands (polls broker idx (held p ts1) w)).length
        = (motion_commands w).length + 1 →
      shutter_commands (polls broker idx (held p (ts1 ++ ts2)) w)
        = shutter_commands (polls broker idx (held p ts1) w) ∧
      (polls broker idx (held p (ts1 ++ ts2)) w).switch_state
        = (polls broker idx (held p ts1) w).switch_state ∧
      (polls broker idx (held p (ts1 ++ ts2)) w).switch_lastchange
        = (polls broker idx (held p ts1) w).switch_lastchange) ∧
    (∀ (t : Int) (ts : List Int), ts1 = t :: ts →
      t - w.switch_lastchange.getD (idx - 1).toNat 0 ≤ 2000 →
      shutter_commands (polls broker idx (held p (ts1 ++ ts2)) w) =
        shutter_commands w ++ [if p = SWITCH_UP then shutter_up idx else shutter_down idx]) := by
  have happ : ∀ a b : List Int, polls broker idx (held p (a ++ b)) w
      = polls broker idx (held p b) (polls broker idx (held p a) w) := by
    intro a b
    rw [held, List.map_append]
    exact polls_append broker idx _ _ w
  refine ⟨?_, ?_, ?_, ?_⟩
  · obtain ⟨k, b, e1, _, _⟩ := polls_from_neutral broker idx p hidx hp (ts1 ++ ts2) w hst
    exact ⟨k, b, e1⟩
  · obtain ⟨k, b, _, e2, _⟩ := polls_from_neutral broker idx p hidx hp (ts1 ++ ts2) w hst
    rw [e2]
    cases b <;> simp
  · intro hm
    obtain ⟨k, b, _, e2, e3⟩ := polls_from_neutral broker idx p hidx hp ts1 w hst
    cases b with
    | false => rw [e2] at hm; simp at hm
    | true =>
      have hh := polls_held broker idx p hp ts2 (polls broker idx (held p ts1) w)
        (by simpa using e3)
      rw [happ]
      exact ⟨hh.2.2.1, hh.1, hh.2.1⟩
  · intro t ts hts ht
    subst hts
    have hcons : polls broker idx (held p (t :: ts ++ ts2)) w
        = polls broker idx (held p (ts ++ ts2)) (poll broker idx w (t, p)) := rfl
    rw [hcons]
    rcases poll_from_neutral broker idx p t w hidx hp hst with ⟨h, _⟩ | ⟨_, h1, h2, _⟩
    · omega
    · rw [(polls_held broker idx p hp (ts ++ ts2) (poll broker idx w (t, p)) h1).2.2.1, h2]

/-- Witness for `held_switch_one_motion_command`: channel 1 stored Neutral since
time 0, held Up at the polls of 1000, 2000 and 3000 ms. -/
theorem held_switch_one_motion_command_witness :
    (motion_commands (polls (fun _ => ⟨.OK, 1, 254⟩) 1 (held SWITCH_UP ([1000] ++ [2000, 3000]))
        (initial_world SWITCH_NEUTRAL 0))).length
      ≤ (motion_commands (initial_world SWITCH_NEUTRAL 0)).length + 1 ∧
    shutter_commands (polls (fun _ => ⟨.OK, 1, 254⟩) 1 (held SWITCH_UP ([1000] ++ [2000, 3000]))
        (initial_world SWITCH_NEUTRAL 0)) =
      shutter_commands (initial_world SWITCH_NEUTRAL 0) ++
        [if SWITCH_UP = SWITCH_UP then shutter_up 1 else shutter_down 1] :=
  ⟨(held_switch_one_motion_command (fun _ => ⟨.OK, 1, 254⟩) 1 SWITCH_UP
      (initial_world SWITCH_NEUTRAL 0) [1000] [2000, 3000] (by decide) (by decide)
      (by decide)).2.1,
   (held_switch_one_motion_command (fun _ => ⟨.OK, 1, 254⟩) 1 SWITCH_UP
      (initial_world SWITCH_NEUTRAL 0) [1000] [2000, 3000] (by decide) (by decide)
      (by decide)).2.2.2 1000 [] rfl (by decide)⟩

/-- C6 (the claim fails as stated): in the scenario the poll of 3000 ms, two seconds
after the change stored at 1000 ms, issues nothing; after the polls of 0, 1000,
2000 and 3000 ms the only command issued is the shutter Up of channel 2 and no lock
beep has been sent. -/
theorem scenario_no_beep_at_3000 :
    (polls (fun _ => ⟨.OK, 1, 254⟩) 2
        [(0, SWITCH_NEUTRAL), (1000, SWITCH_UP), (2000, SWITCH_UP), (3000, SWITCH_UP)]
        (initial_world SWITCH_NEUTRAL 0)).calls = [shutter_up 2] ∧
    lock_beep ∉ (polls (fun _ => ⟨.OK, 1, 254⟩) 2
        [(0, SWITCH_NEUTRAL), (1000, SWITCH_UP), (2000, SWITCH_UP), (3000, SWITCH_UP)]
        (initial_world SWITCH_NEUTRAL 0)).calls := by
  simp [polls, poll, adjust_switch_state, adjust_switch_state_commit, store_switch_state,
    set_shutter_state, beep, printf, initial_world, current_millis, shutter_up, lock_beep,
    SWITCH_NEUTRAL, SWITCH_UP, SWITCH_DOWN, SHUTTER_OFF, SHUTTER_UP, SHUTTER_DOWN,
    I2C_ADDR_CONTROLLER, I2C_ADDR_MANUAL]

/-- C6 (amended): starting from channel 2 stored Neutral with timestamp 0 (the other
channels, the clock and the history arbitrary), feeding the raw positions Neutral,
Up, Up, Up, Up at 0, 1000, 2000, 3000 and 4000 ms issues: nothing at 0 ms, the
shutter Up command of channel 2 at 1000 ms, nothing at 2000 and 3000 ms, the lock
beep at 4000 ms, and no other command. -/
theorem scenario_commands (broker : Nat → Response) (now a c d ta tc td : Int)
    (calls : List Call) (sent : List Request) (stdout : List Printed) (exited : Option Int)
    (cu : Bool) :
    (polls broker 2 [(0, SWITCH_NEUTRAL)]
      ⟨now, [a, SWITCH_NEUTRAL, c, d], [ta, 0, tc, td], calls, sent, stdout, exited, cu⟩).calls
      = calls ∧
    (polls broker 2 [(0, SWITCH_NEUTRAL), (1000, SWITCH_UP)]
      ⟨now, [a, SWITCH_NEUTRAL, c, d], [ta, 0, tc, td], calls, sent, stdout, exited, cu⟩).calls
      = calls ++ [shutter_up 2] ∧
    (polls broker 2 [(0, SWITCH_NEUTRAL), (1000, SWITCH_UP), (2000, SWITCH_UP)]
      ⟨now, [a, SWITCH_NEUTRAL, c, d], [ta, 0, tc, td], calls, sent, stdout, exited, cu⟩).calls
      = calls ++ [shutter_up 2] ∧
    (polls broker 2 [(0, SWITCH_NEUTRAL), (1000, SWITCH_UP), (2000, SWITCH_UP), (3000, SWITCH_UP)]
      ⟨now, [a, SWITCH_NEUTRAL, c, d], [ta, 0, tc, td], calls, sent, stdout, exited, cu⟩).calls
      = calls ++ [shutter_up 2] ∧
    (polls broker 2 [(0, SWITCH_NEUTRAL), (1000, SWITCH_UP), (2000, SWITCH_UP), (3000, SWITCH_UP),
        (4000, SWITCH_UP)]
      ⟨now, [a, SWITCH_NEUTRAL, c, d], [ta, 0, tc, td], calls, sent, stdout, exited, cu⟩).calls
      = calls ++ [shutter_up 2, lock_beep] := by
  simp [polls, poll, adjust_switch_state, adjust_switch_state_commit, store_switch_state,
    set_shutter_state, beep, printf, current_millis, shutter_up, lock_beep,
    SWITCH_NEUTRAL, SWITCH_UP, SWITCH_DOWN, SHUTTER_OFF, SHUTTER_UP, SHUTTER_DOWN,
    I2C_ADDR_CONTROLLER, I2C_ADDR_MANUAL]

/-! ### The actuator and the state machine for arbitrary arguments -/

/-- What `set_shutter_state` leaves untouched, for all arguments: in particular
`exited` is never set, the `default:` branch of its switch is not taken. -/
theorem set_shutter_state_frame (broker : Nat → Response) (idx state : Int) (w : World) :
    (set_shutter_state broker idx state w).2.now = w.now ∧
    (set_shutter_state broker idx state w).2.switch_state = w.switch_state ∧
    (set_shutter_state broker idx state w).2.switch_lastchange = w.switch_lastchange ∧
    (set_shutter_state broker idx state w).2.exited = w.exited := by
  unfold set_shutter_state
  simp only [SHUTTER_OFF, SHUTTER_UP, SHUTTER_DOWN]
  split_ifs with h1 h2 h3 h4 h5
  · exact ⟨rfl, rfl, rfl, rfl⟩
  · exact ⟨rfl, rfl, rfl, rfl⟩
  · simp
  · simp
  · simp
  · omega

/-- The calls `set_shutter_state` records, for all arguments. -/
theorem set_shutter_state_calls (broker : Nat → Response) (idx state : Int) (w : World) :
    (set_shutter_state broker idx state w).2.calls =
      if (1 ≤ idx ∧ idx ≤ 4) ∧ (0 ≤ state ∧ state ≤ 2) then
        w.calls ++ [⟨I2C_ADDR_CONTROLLER, state + 1, idx - 1⟩]
      else w.calls := by
  by_cases h : (1 ≤ idx ∧ idx ≤ 4) ∧ (0 ≤ state ∧ state ≤ 2)
  · rw [if_pos h, set_shutter_state_valid broker idx state w h.1 h.2]
    simp
  · rw [if_neg h]
    unfold set_shutter_state
    by_cases h1 : idx < 1 ∨ idx > 4
    · rw [if_pos h1]
    · rw [if_neg h1, if_pos (by omega)]

/-- What `store_switch_state` leaves untouched. -/
theorem store_switch_state_frame (idx state : Int) (w : World) :
    (store_switch_state idx state w).2.now = w.now ∧
    (store_switch_state idx state w).2.calls = w.calls ∧
    (store_switch_state idx state w).2.exited = w.exited ∧
    (store_switch_state idx state w).2.sent = w.sent ∧
    (store_switch_state idx state w).2.stdout = w.stdout := by
  unfold store_switch_state
  simp only
  split_ifs <;> exact ⟨rfl, rfl, rfl, rfl, rfl⟩

/-- The calls recorded by the second half of `adjust_switch_state`, for all
arguments: none, or one shutter command for channel `idx`; an Up or Down command
only for the raw position Up or Down. -/
theorem adjust_switch_state_commit_calls (broker : Nat → Response) (idx state e : Int)
    (w : World) :
    (adjust_switch_state_commit broker idx state e w).calls = w.calls ∨
    (adjust_switch_state_commit broker idx state e w).calls = w.calls ++ [shutter_off idx] ∨
    (state = SWITCH_UP ∧
      (adjust_switch_state_commit broker idx state e w).calls = w.calls ++ [shutter_up idx]) ∨
    (state = SWITCH_DOWN ∧
      (adjust_switch_state_commit broker idx state e w).calls
        = w.calls ++ [shutter_down idx]) := by
  have hs := (store_switch_state_frame idx state w).2.1
  unfold adjust_switch_state_commit
  simp only
  split_ifs with h1 h2 h3 h4 h5
  · rw [(store_switch_state_frame _ _ _).2.1, set_shutter_state_calls]
    simp only [printf, hs, SHUTTER_OFF, shutter_off]
    split_ifs <;> simp
  · rw [set_shutter_state_calls]
    simp only [printf, hs, SHUTTER_OFF, shutter_off]
    split_ifs <;> simp
  · rw [set_shutter_state_calls]
    simp only [printf, hs, SHUTTER_UP, shutter_up]
    split_ifs <;> simp [h4]
  · rw [set_shutter_state_calls]
    simp only [printf, hs, SHUTTER_DOWN, shutter_down]
    split_ifs <;> simp [h5]
  · simp [printf, hs]
  · left; exact hs
/-- The three ways `adjust_switch_state` can go. -/
theorem adjust_switch_state_cases (broker : Nat → Response) (idx state : Int) (w : World) :
    adjust_switch_state broker idx state w = w ∨
    adjust_switch_state broker idx state w = beep broker 0x1 (printf (.locking idx) w) ∨
    adjust_switch_state broker idx state w =
      adjust_switch_state_commit broker idx state
        (w.now - w.switch_lastchange.getD (idx - 1).toNat 0) w := by
  unfold adjust_switch_state
  simp only [current_millis]
  split_ifs
  · exact Or.inl rfl
  · exact Or.inr (Or.inl rfl)
  · exact Or.inr (Or.inr rfl)
  · exact Or.inr (Or.inr rfl)

/-- The calls recorded by `adjust_switch_state`, for all arguments: none, the lock
beep, or one shutter command for channel `idx`; an Up or Down command only for the
raw position Up or Down. -/
theorem adjust_switch_state_calls (broker : Nat → Response) (idx state : Int) (w : World) :
    (adjust_switch_state broker idx state w).calls = w.calls ∨
    (adjust_switch_state broker idx state w).calls = w.calls ++ [lock_beep] ∨
    (adjust_switch_state broker idx state w).calls = w.calls ++ [shutter_off idx] ∨
    (state = SWITCH_UP ∧
      (adjust_switch_state broker idx state w).calls = w.calls ++ [shutter_up idx]) ∨
    (state = SWITCH_DOWN ∧
      (adjust_switch_state broker idx state w).calls = w.calls ++ [shutter_down idx]) := by
  rcases adjust_switch_state_cases broker idx state w with h | h | h
  · rw [h]; exact Or.inl rfl
  · rw [h]; exact Or.inr (Or.inl (beep_lock_frame broker idx w).1)
  · rw [h]
    rcases adjust_switch_state_commit_calls broker idx state
      (w.now - w.switch_lastchange.getD (idx - 1).toNat 0) w with c | c | c | c
    · exact Or.inl c
    · exact Or.inr (Or.inr (Or.inl c))
    · exact Or.inr (Or.inr (Or.inr (Or.inl c)))
    · exact Or.inr (Or.inr (Or.inr (Or.inr c)))

/-- The stored positions after `adjust_switch_state`, for all arguments: unchanged,
or cell `idx-1` overwritten with the raw position or with Neutral. -/
theorem adjust_switch_state_stored (broker : Nat → Response) (idx state : Int) (w : World) :
    (adjust_switch_state broker idx state w).switch_state = w.switch_state ∨
    (adjust_switch_state broker idx state w).switch_state
      = w.switch_state.set (idx - 1).toNat state ∨
    (adjust_switch_state broker idx state w).switch_state
      = w.switch_state.set (idx - 1).toNat SWITCH_NEUTRAL := by
  rcases adjust_switch_state_cases broker idx state w with h | h | h
  · rw [h]; exact Or.inl rfl
  · rw [h]; exact Or.inl (beep_lock_frame broker idx w).2.1
  · rw [h]
    unfold adjust_switch_state_commit
    simp only
    by_cases hc : w.switch_state.getD (idx - 1).toNat 0 = state
    · rw [store_switch_state_same idx state w hc]
      left
      simp
    · rw [store_switch_state_change idx state w hc]
      simp only
      split_ifs
      · right; right
        unfold store_switch_state
        simp only [(set_shutter_state_frame _ _ _ _).2.1, printf]
        split_ifs with h5
        · simp only [(set_shutter_state_frame _ _ _ _).2.1]
          by_cases hlt : (idx - 1).toNat < w.switch_state.length
          · rw [getD_set_self _ _ _ hlt] at h5
            rw [h5]
          · rw [List.set_eq_of_length_le (by omega), List.set_eq_of_length_le (by omega)]
        · simp [(set_shutter_state_frame _ _ _ _).2.1]
      · right; left; simp [(set_shutter_state_frame _ _ _ _).2.1, printf]
      · right; left; simp [(set_shutter_state_frame _ _ _ _).2.1, printf]
      · right; left; simp [(set_shutter_state_frame _ _ _ _).2.1, printf]
      · right; left; simp [printf]
      · right; left; rfl

/-! ### C11-C14: the transition rules of the state machine -/

/-- C11: for a channel in `1..4` with stored position `s` (Up, Down or Neutral) and a
raw position `r` different from `s`, a poll with elapsed time above 2000 ms that is
not caught by the lock-window rules (elapsed at least 60000 ms, or `r` not Neutral)
issues exactly one command, shutter Off for that channel, and leaves Neutral stored
with the timestamp of the channel set to the time of the poll. -/
theorem unlock_and_stop (broker : Nat → Response) (idx s r : Int) (w : World)
    (hidx : 1 ≤ idx ∧ idx ≤ 4)
    (hs : s = SWITCH_UP ∨ s = SWITCH_DOWN ∨ s = SWITCH_NEUTRAL)
    (hst : w.switch_state.getD (idx - 1).toNat 0 = s) (hr : r ≠ s)
    (hlen : w.switch_lastchange.length = 4)
    (he : 2000 < w.now - w.switch_lastchange.getD (idx - 1).toNat 0)
    (h : 60000 ≤ w.now - w.switch_lastchange.getD (idx - 1).toNat 0 ∨ r ≠ SWITCH_NEUTRAL) :
    (adjust_switch_state broker idx r w).calls = w.calls ++ [shutter_off idx] ∧
    (adjust_switch_state broker idx r w).switch_state.getD (idx - 1).toNat 0 = SWITCH_NEUTRAL ∧
    (adjust_switch_state broker idx r w).switch_lastchange.getD (idx - 1).toNat 0 = w.now ∧
    (adjust_switch_state broker idx r w).switch_state
      = w.switch_state.set (idx - 1).toNat SWITCH_NEUTRAL ∧
    (adjust_switch_state broker idx r w).switch_lastchange
      = w.switch_lastchange.set (idx - 1).toNat w.now := by
  have h0 : w.switch_state.getD (idx - 1).toNat 0 ≠ 0 := by
    rw [hst]; rcases hs with h | h | h <;> subst h <;> decide
  have hc := adjust_switch_state_stop broker idx r w hidx (by rw [hst]; exact Ne.symm hr) h0 he h
  refine ⟨hc.1, ?_, ?_, hc.2.1, hc.2.2.1⟩
  · rw [hc.2.1]; exact getD_set_self _ _ _ (getD_ne_zero_lt _ _ h0)
  · rw [hc.2.2.1]; exact getD_set_self _ _ _ (by omega)

/-- Witness for `unlock_and_stop`: channel 1 stored Up since time 0, read Down at
5000 ms. -/
theorem unlock_and_stop_witness :
    (adjust_switch_state (fun _ => ⟨.OK, 1, 254⟩) 1 SWITCH_DOWN
        { initial_world SWITCH_UP 0 with now := 5000 }).calls
      = ({ initial_world SWITCH_UP 0 with now := 5000 } : World).calls ++ [shutter_off 1] :=
  (unlock_and_stop (fun _ => ⟨.OK, 1, 254⟩) 1 SWITCH_UP SWITCH_DOWN
    { initial_world SWITCH_UP 0 with now := 5000 } (by decide) (by decide) (by decide)
    (by decide) (by decide) (by decide) (by decide)).1

/-- C12: for a channel in `1..4` with stored position `s` and raw position `r`, both
among Up, Down and Neutral: if `r` differs from `s` and the elapsed time is at most
2000 ms, the poll issues exactly one command, the shutter command matching `r` (Off
for Neutral, Up for Up, Down for Down) for that channel, stores `r` and sets the
timestamp of the channel to the time of the poll; if `r` equals `s` the poll issues
no shutter command and leaves stored positions and timestamps as they are (within
the 2000 ms it does nothing at all). -/
theorem commit_within_hold_window (broker : Nat → Response) (idx s r : Int) (w : World)
    (hidx : 1 ≤ idx ∧ idx ≤ 4)
    (hs : s = SWITCH_UP ∨ s = SWITCH_DOWN ∨ s = SWITCH_NEUTRAL)
    (hr : r = SWITCH_UP ∨ r = SWITCH_DOWN ∨ r = SWITCH_NEUTRAL)
    (hst : w.switch_state.getD (idx - 1).toNat 0 = s)
    (hlen : w.switch_lastchange.length = 4) :
    (r ≠ s → w.now - w.switch_lastchange.getD (idx - 1).toNat 0 ≤ 2000 →
      (adjust_switch_state broker idx r w).calls =
        w.calls ++ [if r = SWITCH_NEUTRAL then shutter_off idx
                    else if r = SWITCH_UP then shutter_up idx else shutter_down idx] ∧
      (adjust_switch_state broker idx r w).switch_state.getD (idx - 1).toNat 0 = r ∧
      (adjust_switch_state broker idx r w).switch_lastchange.getD (idx - 1).toNat 0 = w.now ∧
      (adjust_switch_state broker idx r w).switch_state
        = w.switch_state.set (idx - 1).toNat r ∧
      (adjust_switch_state broker idx r w).switch_lastchange
        = w.switch_lastchange.set (idx - 1).toNat w.now) ∧
    (r = s →
      shutter_commands (adjust_switch_state broker idx r w) = shutter_commands w ∧
      (adjust_switch_state broker idx r w).switch_state = w.switch_state ∧
      (adjust_switch_state broker idx r w).switch_lastchange = w.switch_lastchange) ∧
    (r = s → w.now - w.switch_lastchange.getD (idx - 1).toNat 0 ≤ 2000 →
      adjust_switch_state broker idx r w = w) := by
  have h0 : w.switch_state.getD (idx - 1).toNat 0 ≠ 0 := by
    rw [hst]; rcases hs with h | h | h <;> subst h <;> decide
  refine ⟨?_, ?_, ?_⟩
  · intro hne he
    have hc := adjust_switch_state_change broker idx r w hidx
      (by rcases hr with h | h | h <;> simp [h]) (by rw [hst]; exact Ne.symm hne) h0 he
    refine ⟨hc.1, ?_, ?_, hc.2.1, hc.2.2.1⟩
    · rw [hc.2.1]; exact getD_set_self _ _ _ (getD_ne_zero_lt _ _ h0)
    · rw [hc.2.2.1]; exact getD_set_self _ _ _ (by omega)
  · intro heq
    subst heq
    rcases hr with h | h | h
    · have := poll_held broker idx r w.now w (Or.inl h) hst
      exact ⟨this.2.2.1, this.1, this.2.1⟩
    · have := poll_held broker idx r w.now w (Or.inr h) hst
      exact ⟨this.2.2.1, this.1, this.2.1⟩
    · subst h
      have := poll_neutral broker idx w.now w hst
      have e : adjust_switch_state broker idx SWITCH_NEUTRAL w = w := this
      rw [e]
      exact ⟨rfl, rfl, rfl⟩
  · intro heq he
    subst heq
    exact adjust_switch_state_unchanged broker idx r w hst (Or.inl he)

/-- Witness for `commit_within_hold_window`: channel 1 stored Neutral since time 0,
read Up at 1000 ms. -/
theorem commit_within_hold_window_witness :
    (adjust_switch_state (fun _ => ⟨.OK, 1, 254⟩) 1 SWITCH_UP
        { initial_world SWITCH_NEUTRAL 0 with now := 1000 }).calls =
      ({ initial_world SWITCH_NEUTRAL 0 with now := 1000 } : World).calls ++
        [if SWITCH_UP = SWITCH_NEUTRAL then shutter_off 1
         else if SWITCH_UP = SWITCH_UP then shutter_up 1 else shutter_down 1] :=
  ((commit_within_hold_window (fun _ => ⟨.OK, 1, 254⟩) 1 SWITCH_NEUTRAL SWITCH_UP
    { initial_world SWITCH_NEUTRAL 0 with now := 1000 } (by decide) (by decide) (by decide)
    (by decide) (by decide)).1 (by decide) (by decide)).1

/-- C13: for a channel in `1..4` whose stored position is Up or Down, a poll that
reads the stored position with elapsed time above 2000 ms and below 60000 ms issues
exactly one command, the beep (opcode 1, operand 1, device `0x22`), no shutter
command, and leaves all stored positions and timestamps unchanged. -/
theorem lock_policy (broker : Nat → Response) (idx s : Int) (w : World)
    (_hidx : 1 ≤ idx ∧ idx ≤ 4) (hs : s = SWITCH_UP ∨ s = SWITCH_DOWN)
    (hst : w.switch_state.getD (idx - 1).toNat 0 = s)
    (h1 : 2000 < w.now - w.switch_lastchange.getD (idx - 1).toNat 0)
    (h2 : w.now - w.switch_lastchange.getD (idx - 1).toNat 0 < 60000) :
    (adjust_switch_state broker idx s w).calls = w.calls ++ [⟨0x22, 1, 1⟩] ∧
    shutter_commands (adjust_switch_state broker idx s w) = shutter_commands w ∧
    (adjust_switch_state broker idx s w).switch_state = w.switch_state ∧
    (adjust_switch_state broker idx s w).switch_lastchange = w.switch_lastchange := by
  have hsn : s ≠ SWITCH_NEUTRAL := by
    rcases hs with h | h <;> subst h <;> decide
  rw [adjust_switch_state_lock broker idx s w hsn hst h2 h1]
  have hb := beep_lock_frame broker idx w
  refine ⟨hb.1, ?_, hb.2.1, hb.2.2.1⟩
  simp [shutter_commands, hb.1, lock_beep, I2C_ADDR_CONTROLLER, I2C_ADDR_MANUAL]

/-- Witness for `lock_policy`: channel 1 stored Up since time 0, read Up at
3000 ms. -/
theorem lock_policy_witness :
    (adjust_switch_state (fun _ => ⟨.OK, 1, 254⟩) 1 SWITCH_UP
        { initial_world SWITCH_UP 0 with now := 3000 }).calls
      = ({ initial_world SWITCH_UP 0 with now := 3000 } : World).calls ++ [⟨0x22, 1, 1⟩] :=
  (lock_policy (fun _ => ⟨.OK, 1, 254⟩) 1 SWITCH_UP
    { initial_world SWITCH_UP 0 with now := 3000 } (by decide) (by decide) (by decide)
    (by decide) (by decide)).1

/-- C14: for a channel in `1..4` and whatever is stored, a poll that reads Neutral
with elapsed time above 2000 ms and below 60000 ms does nothing: no command of any
kind, all stored positions and timestamps unchanged. -/
theorem neutral_ignored_while_latched (broker : Nat → Response) (idx : Int) (w : World)
    (_hidx : 1 ≤ idx ∧ idx ≤ 4)
    (h1 : 2000 < w.now - w.switch_lastchange.getD (idx - 1).toNat 0)
    (h2 : w.now - w.switch_lastchange.getD (idx - 1).toNat 0 < 60000) :
    adjust_switch_state broker idx SWITCH_NEUTRAL w = w ∧
    (adjust_switch_state broker idx SWITCH_NEUTRAL w).calls = w.calls ∧
    (adjust_switch_state broker idx SWITCH_NEUTRAL w).sent = w.sent ∧
    (adjust_switch_state broker idx SWITCH_NEUTRAL w).switch_state = w.switch_state ∧
    (adjust_switch_state broker idx SWITCH_NEUTRAL w).switch_lastchange
      = w.switch_lastchange := by
  rw [adjust_switch_state_ignore broker idx w h2 h1]
  exact ⟨rfl, rfl, rfl, rfl, rfl⟩

/-- Witness for `neutral_ignored_while_latched`: channel 1 stored Up since time 0,
read Neutral at 3000 ms. -/
theorem neutral_ignored_while_latched_witness :
    adjust_switch_state (fun _ => ⟨.OK, 1, 254⟩) 1 SWITCH_NEUTRAL
        { initial_world SWITCH_UP 0 with now := 3000 }
      = { initial_world SWITCH_UP 0 with now := 3000 } :=
  (neutral_ignored_while_latched (fun _ => ⟨.OK, 1, 254⟩) 1
    { initial_world SWITCH_UP 0 with now := 3000 } (by decide) (by decide) (by decide)).1

/-! ### C15-C17: the actuator and the state store -/

/-- Reading a cell other than the one just written. -/
theorem getD_set_ne (l : List Int) (i j : Nat) (a : Int) (h : j ≠ i) :
    (l.set i a).getD j 0 = l.getD j 0 := by
  simp [List.getD_eq_getElem?_getD, List.getElem?_set_ne (Ne.symm h)]

/-- C15: for a channel `idx` in `1..4` and a motion state in `0..2`,
`set_shutter_state` returns 0 and records exactly one call of `I2C_command`, to the
shutter controller `0x21`, with opcode 1 for Off, 2 for Up, 3 for Down and operand
`idx - 1`; that call is not rejected by the range check of `I2C_command` (it returns
no `I2C_ERR_INVALIDARGUMENT` and reaches the bus), and the `default:` branch is not
taken: `exited` stays as it was and its message is not printed. -/
theorem set_shutter_state_mapping (broker : Nat → Response) (idx state : Int) (w : World)
    (hidx : 1 ≤ idx ∧ idx ≤ 4) (hst : 0 ≤ state ∧ state ≤ 2) :
    (set_shutter_state broker idx state w).1 = 0 ∧
    (set_shutter_state broker idx state w).2.calls =
      w.calls ++ [⟨0x21, if state = SHUTTER_OFF then 1 else if state = SHUTTER_UP then 2 else 3,
        idx - 1⟩] ∧
    (I2C_command broker 0x21
        (if state = SHUTTER_OFF then 1 else if state = SHUTTER_UP then 2 else 3) (idx - 1) w).1
      ≠ I2C_ERR_INVALIDARGUMENT ∧
    w.sent.length < (set_shutter_state broker idx state w).2.sent.length ∧
    (set_shutter_state broker idx state w).2.exited = w.exited ∧
    (∀ st, Printed.unknown_shutter_state st ∈ (set_shutter_state broker idx state w).2.stdout →
      Printed.unknown_shutter_state st ∈ w.stdout) := by
  have hop : (if state = SHUTTER_OFF then (1 : Int) else if state = SHUTTER_UP then 2 else 3)
      = state + 1 := by
    simp only [SHUTTER_OFF, SHUTTER_UP]
    split_ifs <;> omega
  rw [hop, set_shutter_state_valid broker idx state w hidx hst]
  have hv := I2C_command_valid broker I2C_ADDR_CONTROLLER (state + 1) (idx - 1) w
    (by omega) (by omega) (by omega) (by omega)
  have e : (0x21 : Int) = I2C_ADDR_CONTROLLER := rfl
  rw [e, hv]
  refine ⟨rfl, rfl, ?_, ?_, rfl, ?_⟩
  · simp only [I2C_ERR_INVALIDARGUMENT]; omega
  · simp
  · intro st hmem
    simpa using hmem

/-- Witness for `set_shutter_state_mapping`: channel 2, Up. -/
theorem set_shutter_state_mapping_witness :
    (set_shutter_state (fun _ => ⟨.OK, 1, 254⟩) 2 SHUTTER_UP (initial_world SWITCH_NEUTRAL 0)).1
      = 0 ∧
    (set_shutter_state (fun _ => ⟨.OK, 1, 254⟩) 2 SHUTTER_UP
        (initial_world SWITCH_NEUTRAL 0)).2.calls =
      (initial_world SWITCH_NEUTRAL 0).calls ++
        [⟨0x21, if SHUTTER_UP = SHUTTER_OFF then 1 else if SHUTTER_UP = SHUTTER_UP then 2 else 3,
          2 - 1⟩] :=
  ⟨(set_shutter_state_mapping (fun _ => ⟨.OK, 1, 254⟩) 2 SHUTTER_UP
      (initial_world SWITCH_NEUTRAL 0) (by decide) (by decide)).1,
   (set_shutter_state_mapping (fun _ => ⟨.OK, 1, 254⟩) 2 SHUTTER_UP
      (initial_world SWITCH_NEUTRAL 0) (by decide) (by decide)).2.1⟩

/-- C16 (the code departs from the claim): when `idx` is outside `1..4` or `state`
is outside `0..2`, `set_shutter_state` does nothing (no call of `I2C_command`, no bus
transaction, the world is unchanged) and returns `SHUTTER_ERR_OUTOFBOUNDS` converted
to its return type plain `char`; otherwise it returns 0.  Where plain `char` is
signed the value returned is `-2` exactly for the arguments out of range; where it
is unsigned, as on the Raspberry Pi, the value returned for them is 254 and the
function never returns `SHUTTER_ERR_OUTOFBOUNDS`. -/
theorem set_shutter_state_rejection (broker : Nat → Response) (idx state : Int) (w : World) :
    ((idx < 1 ∨ 4 < idx ∨ state < 0 ∨ 2 < state) →
      (set_shutter_state broker idx state w).1
        = plain_char w.char_unsigned SHUTTER_ERR_OUTOFBOUNDS ∧
      (set_shutter_state broker idx state w).2 = w ∧
      (set_shutter_state broker idx state w).2.calls = w.calls ∧
      (set_shutter_state broker idx state w).2.sent = w.sent) ∧
    (¬ (idx < 1 ∨ 4 < idx ∨ state < 0 ∨ 2 < state) →
      (set_shutter_state broker idx state w).1 = 0) ∧
    (w.char_unsigned = false →
      ((set_shutter_state broker idx state w).1 = SHUTTER_ERR_OUTOFBOUNDS ↔
        (idx < 1 ∨ 4 < idx ∨ state < 0 ∨ 2 < state))) ∧
    (w.char_unsigned = true →
      ((set_shutter_state broker idx state w).1 = 254 ↔
        (idx < 1 ∨ 4 < idx ∨ state < 0 ∨ 2 < state)) ∧
      (set_shutter_state broker idx state w).1 ≠ SHUTTER_ERR_OUTOFBOUNDS) := by
  by_cases h : idx < 1 ∨ 4 < idx ∨ state < 0 ∨ 2 < state
  · have e : set_shutter_state broker idx state w
        = (plain_char w.char_unsigned SHUTTER_ERR_OUTOFBOUNDS, w) := by
      unfold set_shutter_state
      by_cases h1 : idx < 1 ∨ idx > 4
      · rw [if_pos h1]
      · rw [if_neg h1, if_pos (by omega)]
    rw [e]
    refine ⟨fun _ => ⟨rfl, rfl, rfl, rfl⟩, fun h2 => absurd h h2, fun hu => ?_, fun hu => ?_⟩
    · simp [hu, plain_char, SHUTTER_ERR_OUTOFBOUNDS, h]
    · simp [hu, plain_char, SHUTTER_ERR_OUTOFBOUNDS, h]
  · rw [set_shutter_state_valid broker idx state w (by omega) (by omega)]
    refine ⟨fun h2 => absurd h2 h, fun _ => rfl, fun _ => ?_, fun _ => ?_⟩
    · simp [SHUTTER_ERR_OUTOFBOUNDS, h]
    · simp [SHUTTER_ERR_OUTOFBOUNDS, h]

/-- Witness for `set_shutter_state_rejection`: on a platform with unsigned plain
`char`, channel 5 is rejected with nothing sent, and the value returned is 254, not
`SHUTTER_ERR_OUTOFBOUNDS`. -/
theorem set_shutter_state_rejection_witness :
    (set_shutter_state (fun _ => ⟨.OK, 1, 254⟩) 5 SHUTTER_UP (initial_world SWITCH_NEUTRAL 0)).1
      = 254 ∧
    (set_shutter_state (fun _ => ⟨.OK, 1, 254⟩) 5 SHUTTER_UP (initial_world SWITCH_NEUTRAL 0)).1
      ≠ SHUTTER_ERR_OUTOFBOUNDS ∧
    (set_shutter_state (fun _ => ⟨.OK, 1, 254⟩) 5 SHUTTER_UP (initial_world SWITCH_NEUTRAL 0)).2
      = initial_world SWITCH_NEUTRAL 0 :=
  ⟨((set_shutter_state_rejection (fun _ => ⟨.OK, 1, 254⟩) 5 SHUTTER_UP
      (initial_world SWITCH_NEUTRAL 0)).2.2.2 rfl).1.2 (by decide),
   ((set_shutter_state_rejection (fun _ => ⟨.OK, 1, 254⟩) 5 SHUTTER_UP
      (initial_world SWITCH_NEUTRAL 0)).2.2.2 rfl).2,
   ((set_shutter_state_rejection (fun _ => ⟨.OK, 1, 254⟩) 5 SHUTTER_UP
      (initial_world SWITCH_NEUTRAL 0)).1 (by decide)).2.1⟩

/-- C17 (the claim fails as stated): with `SWITCH_LOCKED` stored for channel 1,
storing Up changes the stored state and yet returns 0. -/
theorem store_switch_state_locked_returns_zero :
    (store_switch_state 1 SWITCH_UP (initial_world SWITCH_LOCKED 0)).1 = 0 ∧
    (store_switch_state 1 SWITCH_UP (initial_world SWITCH_LOCKED 0)).2.switch_state
      = [SWITCH_UP, SWITCH_LOCKED, SWITCH_LOCKED, SWITCH_LOCKED] ∧
    (store_switch_state 1 SWITCH_UP (initial_world SWITCH_LOCKED 0)).2.switch_state
      ≠ (initial_world SWITCH_LOCKED 0).switch_state := by
  decide

/-- C17 (amended): for a channel in `1..4` with stored state `s` among Up, Down,
Neutral and Locked, and any new state: the stored state is left as it is exactly when
the new state equals `s`, and then the world is unchanged and 0 is returned;
otherwise the new state is stored, the timestamp of the channel is set to the
current time, the old state `s` is returned and the other channels are untouched.
So the function returns 0 exactly when there was no change or the old state was
`SWITCH_LOCKED`. -/
theorem store_switch_state_result (idx s state : Int) (w : World)
    (hidx : 1 ≤ idx ∧ idx ≤ 4)
    (hs : s = SWITCH_UP ∨ s = SWITCH_DOWN ∨ s = SWITCH_NEUTRAL ∨ s = SWITCH_LOCKED)
    (hst : w.switch_state.getD (idx - 1).toNat 0 = s)
    (hlen : w.switch_state.length = 4) (hlen2 : w.switch_lastchange.length = 4) :
    ((store_switch_state idx state w).2.switch_state = w.switch_state ↔ state = s) ∧
    ((store_switch_state idx state w).1 = 0 ↔ (state = s ∨ s = SWITCH_LOCKED)) ∧
    (state = s → store_switch_state idx state w = (0, w)) ∧
    (state ≠ s →
      (store_switch_state idx state w).1 = s ∧
      (store_switch_state idx state w).2.switch_state.getD (idx - 1).toNat 0 = state ∧
      (store_switch_state idx state w).2.switch_lastchange.getD (idx - 1).toNat 0 = w.now ∧
      ∀ j : Nat, j ≠ (idx - 1).toNat →
        (store_switch_state idx state w).2.switch_state.getD j 0 = w.switch_state.getD j 0 ∧
        (store_switch_state idx state w).2.switch_lastchange.getD j 0
          = w.switch_lastchange.getD j 0) := by
  have hi : (idx - 1).toNat < w.switch_state.length := by omega
  have hi2 : (idx - 1).toNat < w.switch_lastchange.length := by omega
  by_cases h : state = s
  · subst h
    rw [store_switch_state_same idx state w hst]
    exact ⟨⟨fun _ => rfl, fun _ => rfl⟩, ⟨fun _ => Or.inl rfl, fun _ => rfl⟩, fun _ => rfl,
      fun hne => absurd rfl hne⟩
  · have hne : w.switch_state.getD (idx - 1).toNat 0 ≠ state := by
      rw [hst]; exact Ne.symm h
    rw [store_switch_state_change idx state w hne]
    simp only
    have hread : (w.switch_state.set (idx - 1).toNat state).getD (idx - 1).toNat 0 = state :=
      getD_set_self _ _ _ hi
    refine ⟨⟨fun heq => ?_, fun heq => absurd heq h⟩, ⟨fun h0 => ?_, fun h0 => ?_⟩,
      fun heq => absurd heq h, fun _ => ⟨hst, hread, getD_set_self _ _ _ hi2, fun j hj => ?_⟩⟩
    · rw [heq] at hread
      exact absurd hread hne
    · right; rw [← hst]; exact h0
    · rcases h0 with h0 | h0
      · exact absurd h0 h
      · rw [hst]; exact h0
    · exact ⟨getD_set_ne _ _ _ _ hj, getD_set_ne _ _ _ _ hj⟩

/-- Witness for `store_switch_state_result`: channel 1 stored Neutral, new state
Up. -/
theorem store_switch_state_result_witness :
    (store_switch_state 1 SWITCH_UP (initial_world SWITCH_NEUTRAL 0)).1 = SWITCH_NEUTRAL ∧
    (store_switch_state 1 SWITCH_UP (initial_world SWITCH_NEUTRAL 0)).2.switch_state.getD
        (1 - 1 : Int).toNat 0 = SWITCH_UP :=
  ⟨((store_switch_state_result 1 SWITCH_NEUTRAL SWITCH_UP (initial_world SWITCH_NEUTRAL 0)
      (by decide) (by decide) (by decide) (by decide) (by decide)).2.2.2 (by decide)).1,
   ((store_switch_state_result 1 SWITCH_NEUTRAL SWITCH_UP (initial_world SWITCH_NEUTRAL 0)
      (by decide) (by decide) (by decide) (by decide) (by decide)).2.2.2 (by decide)).2.1⟩

/-! ### Calls that are not the all-stop command -/

/-- Appending calls that are not the all-stop command, twice. -/
theorem no_all_stop_trans (a b c : List Call)
    (h1 : ∃ m, b = a ++ m ∧ all_stop ∉ m) (h2 : ∃ m, c = b ++ m ∧ all_stop ∉ m) :
    ∃ m, c = a ++ m ∧ all_stop ∉ m := by
  obtain ⟨m1, e1, n1⟩ := h1
  obtain ⟨m2, e2, n2⟩ := h2
  refine ⟨m1 ++ m2, by rw [e2, e1, List.append_assoc], ?_⟩
  simp [n1, n2]

/-- A call of `I2C_command` with an opcode other than 0 adds one call that is not the
all-stop command. -/
theorem I2C_command_no_all_stop (broker : Nat → Response) (addr command data : Int)
    (w : World) (h : command ≠ 0) :
    ∃ m, (I2C_command broker addr command data w).2.calls = w.calls ++ m ∧ all_stop ∉ m := by
  refine ⟨[⟨addr, command, data⟩], I2C_command_calls broker addr command data w, ?_⟩
  simp only [List.mem_singleton, all_stop]
  intro e
  injection e with _ e2 _
  exact h e2.symm

/-- A call of `adjust_switch_state` adds no all-stop command. -/
theorem adjust_switch_state_no_all_stop (broker : Nat → Response) (idx state : Int)
    (w : World) :
    ∃ m, (adjust_switch_state broker idx state w).calls = w.calls ++ m ∧ all_stop ∉ m := by
  rcases adjust_switch_state_calls broker idx state w with h | h | h | ⟨_, h⟩ | ⟨_, h⟩
  · exact ⟨[], by simpa using h, by simp⟩
  · exact ⟨_, h, by simp [all_stop, lock_beep]⟩
  · exact ⟨_, h, by simp [all_stop, shutter_off]⟩
  · exact ⟨_, h, by simp [all_stop, shutter_up]⟩
  · exact ⟨_, h, by simp [all_stop, shutter_down]⟩

/-! ### C19-C20: the hold-threshold boundary and the stored-state invariant -/

/-- Within the hold threshold the second half of `adjust_switch_state` depends on
the elapsed time in no way: calls and stored positions come out the same. -/
theorem adjust_switch_state_commit_hold_window (broker : Nat → Response)
    (idx state e1 e2 : Int) (w1 w2 : World) (h1 : e1 ≤ 2000) (h2 : e2 ≤ 2000)
    (hs : w1.switch_state = w2.switch_state) (hc : w1.calls = w2.calls) :
    (adjust_switch_state_commit broker idx state e1 w1).calls
      = (adjust_switch_state_commit broker idx state e2 w2).calls ∧
    (adjust_switch_state_commit broker idx state e1 w1).switch_state
      = (adjust_switch_state_commit broker idx state e2 w2).switch_state := by
  have d1 : ¬ e1 > 2 * 1000 := by omega
  have d2 : ¬ e2 > 2 * 1000 := by omega
  unfold adjust_switch_state_commit
  simp only [d1, d2, if_false]
  by_cases hst : w1.switch_state.getD (idx - 1).toNat 0 = state
  · rw [store_switch_state_same idx state w1 hst,
      store_switch_state_same idx state w2 (by rw [← hs]; exact hst)]
    simp [hs, hc]
  · rw [store_switch_state_change idx state w1 hst,
      store_switch_state_change idx state w2 (by rw [← hs]; exact hst)]
    simp only [hs]
    split_ifs <;>
      simp [set_shutter_state_calls, (set_shutter_state_frame _ _ _ _).2.1, printf, hs, hc]

/-- C19: a poll at elapsed time exactly 2000 ms gives the same commands and the same
stored positions as a poll of the same channel and raw position at any elapsed time
in `0..1999` ms from the same stored positions.  At exactly 2000 ms none of the
three threshold rules applies: a reading equal to the stored position does nothing
(no lock beep), and a changed reading among Up, Down and Neutral is committed with
its own shutter command (Neutral is not ignored, no forced Off). -/
theorem hold_threshold_boundary (broker : Nat → Response) (idx r : Int) (w1 w2 : World)
    (hidx : 1 ≤ idx ∧ idx ≤ 4)
    (he1 : w1.now - w1.switch_lastchange.getD (idx - 1).toNat 0 = 2000)
    (he2 : 0 ≤ w2.now - w2.switch_lastchange.getD (idx - 1).toNat 0 ∧
      w2.now - w2.switch_lastchange.getD (idx - 1).toNat 0 ≤ 1999)
    (hs : w1.switch_state = w2.switch_state) (hc : w1.calls = w2.calls) :
    (adjust_switch_state broker idx r w1).calls = (adjust_switch_state broker idx r w2).calls ∧
    (adjust_switch_state broker idx r w1).switch_state
      = (adjust_switch_state broker idx r w2).switch_state ∧
    (w1.switch_state.getD (idx - 1).toNat 0 = r → adjust_switch_state broker idx r w1 = w1) ∧
    (w1.switch_state.getD (idx - 1).toNat 0 ≠ r →
      (w1.switch_state.getD (idx - 1).toNat 0 = SWITCH_UP ∨
        w1.switch_state.getD (idx - 1).toNat 0 = SWITCH_DOWN ∨
        w1.switch_state.getD (idx - 1).toNat 0 = SWITCH_NEUTRAL) →
      (r = SWITCH_UP ∨ r = SWITCH_DOWN ∨ r = SWITCH_NEUTRAL) →
      (adjust_switch_state broker idx r w1).calls =
        w1.calls ++ [if r = SWITCH_NEUTRAL then shutter_off idx
                     else if r = SWITCH_UP then shutter_up idx else shutter_down idx] ∧
      (adjust_switch_state broker idx r w1).switch_state
        = w1.switch_state.set (idx - 1).toNat r) := by
  refine ⟨?_, ?_, ?_, ?_⟩
  · rw [adjust_switch_state_eq_commit broker idx r w1 (by omega),
      adjust_switch_state_eq_commit broker idx r w2 (by omega)]
    exact (adjust_switch_state_commit_hold_window broker idx r _ _ w1 w2 (by omega) (by omega)
      hs hc).1
  · rw [adjust_switch_state_eq_commit broker idx r w1 (by omega),
      adjust_switch_state_eq_commit broker idx r w2 (by omega)]
    exact (adjust_switch_state_commit_hold_window broker idx r _ _ w1 w2 (by omega) (by omega)
      hs hc).2
  · intro hst
    exact adjust_switch_state_unchanged broker idx r w1 hst (by omega)
  · intro hne hst hr
    have h0 : w1.switch_state.getD (idx - 1).toNat 0 ≠ 0 := by
      rcases hst with h | h | h <;> rw [h] <;> decide
    have hch := adjust_switch_state_change broker idx r w1 hidx
      (by rcases hr with h | h | h <;> simp [h]) hne h0 (by omega)
    exact ⟨hch.1, hch.2.1⟩

/-- Witness for `hold_threshold_boundary`: channel 1 stored Up, read Up, once
exactly 2000 ms and once 1000 ms after the last change. -/
theorem hold_threshold_boundary_witness :
    (adjust_switch_state (fun _ => ⟨.OK, 1, 254⟩) 1 SWITCH_UP
        { initial_world SWITCH_UP 0 with now := 2000 }).calls
      = (adjust_switch_state (fun _ => ⟨.OK, 1, 254⟩) 1 SWITCH_UP
        { initial_world SWITCH_UP 0 with now := 1000 }).calls :=
  (hold_threshold_boundary (fun _ => ⟨.OK, 1, 254⟩) 1 SWITCH_UP
    { initial_world SWITCH_UP 0 with now := 2000 } { initial_world SWITCH_UP 0 with now := 1000 }
    (by decide) (by decide) (by decide) (by decide) (by decide)).1

/-- One call of `adjust_switch_state` with a raw position among Up, Down and
Neutral keeps four stored positions, each among Up, Down and Neutral. -/
theorem adjust_switch_state_keeps_positions (broker : Nat → Response) (idx r : Int)
    (w : World) (hr : r = SWITCH_UP ∨ r = SWITCH_DOWN ∨ r = SWITCH_NEUTRAL)
    (hw : w.switch_state.length = 4 ∧
      ∀ x ∈ w.switch_state, x = SWITCH_UP ∨ x = SWITCH_DOWN ∨ x = SWITCH_NEUTRAL) :
    (adjust_switch_state broker idx r w).switch_state.length = 4 ∧
    ∀ x ∈ (adjust_switch_state broker idx r w).switch_state,
      x = SWITCH_UP ∨ x = SWITCH_DOWN ∨ x = SWITCH_NEUTRAL := by
  rcases adjust_switch_state_stored broker idx r w with h | h | h <;> rw [h]
  · exact hw
  · refine ⟨by simp [hw.1], fun x hx => ?_⟩
    rcases List.mem_or_eq_of_mem_set hx with h1 | h1
    · exact hw.2 x h1
    · rw [h1]; exact hr
  · refine ⟨by simp [hw.1], fun x hx => ?_⟩
    rcases List.mem_or_eq_of_mem_set hx with h1 | h1
    · exact hw.2 x h1
    · rw [h1]; exact Or.inr (Or.inr rfl)

/-- C20: starting from `clear_stored_switch_state`, after any sequence of calls of
`adjust_switch_state` with channel in `1..4`, raw position among Up, Down and
Neutral and any clock readings, there are four stored positions, each of them Up,
Down or Neutral; `SWITCH_LOCKED` is not stored. -/
theorem stored_state_invariant (broker : Nat → Response) (steps : List (Int × Int × Int))
    (w : World)
    (hsteps : ∀ s ∈ steps, (1 ≤ s.1 ∧ s.1 ≤ 4) ∧
      (s.2.2 = SWITCH_UP ∨ s.2.2 = SWITCH_DOWN ∨ s.2.2 = SWITCH_NEUTRAL)) :
    (adjusts broker steps (clear_stored_switch_state w)).switch_state.length = 4 ∧
    (∀ x ∈ (adjusts broker steps (clear_stored_switch_state w)).switch_state,
      x = SWITCH_UP ∨ x = SWITCH_DOWN ∨ x = SWITCH_NEUTRAL) ∧
    SWITCH_LOCKED ∉ (adjusts broker steps (clear_stored_switch_state w)).switch_state := by
  have key : ∀ (steps : List (Int × Int × Int)) (w : World),
      (∀ s ∈ steps, (1 ≤ s.1 ∧ s.1 ≤ 4) ∧
        (s.2.2 = SWITCH_UP ∨ s.2.2 = SWITCH_DOWN ∨ s.2.2 = SWITCH_NEUTRAL)) →
      (w.switch_state.length = 4 ∧
        ∀ x ∈ w.switch_state, x = SWITCH_UP ∨ x = SWITCH_DOWN ∨ x = SWITCH_NEUTRAL) →
      ((adjusts broker steps w).switch_state.length = 4 ∧
        ∀ x ∈ (adjusts broker steps w).switch_state,
          x = SWITCH_UP ∨ x = SWITCH_DOWN ∨ x = SWITCH_NEUTRAL) := by
    intro steps
    induction steps with
    | nil => intro w _ hw; exact hw
    | cons s steps ih =>
      intro w hst hw
      have hs := hst s (by simp)
      exact ih _ (fun t ht => hst t (by simp [ht]))
        (adjust_switch_state_keeps_positions broker s.1 s.2.2 { w with now := s.2.1 } hs.2 hw)
  have h := key steps (clear_stored_switch_state w) hsteps
    ⟨by simp [clear_stored_switch_state], fun x hx => by
      simp only [clear_stored_switch_state, List.mem_replicate] at hx
      exact Or.inr (Or.inr hx.2)⟩
  refine ⟨h.1, h.2, fun hmem => ?_⟩
  rcases h.2 _ hmem with e | e | e <;> exact absurd e (by decide)

/-- Witness for `stored_state_invariant`: channel 1 read Up at 1000 ms, channel 2
read Down at 1000 ms, channel 1 read Neutral at 9000 ms. -/
theorem stored_state_invariant_witness :
    (adjusts (fun _ => ⟨.OK, 1, 254⟩)
        [(1, 1000, SWITCH_UP), (2, 1000, SWITCH_DOWN), (1, 9000, SWITCH_NEUTRAL)]
        (clear_stored_switch_state (initial_world SWITCH_LOCKED 0))).switch_state.length = 4 ∧
    SWITCH_LOCKED ∉ (adjusts (fun _ => ⟨.OK, 1, 254⟩)
        [(1, 1000, SWITCH_UP), (2, 1000, SWITCH_DOWN), (1, 9000, SWITCH_NEUTRAL)]
        (clear_stored_switch_state (initial_world SWITCH_LOCKED 0))).switch_state :=
  ⟨(stored_state_invariant (fun _ => ⟨.OK, 1, 254⟩)
      [(1, 1000, SWITCH_UP), (2, 1000, SWITCH_DOWN), (1, 9000, SWITCH_NEUTRAL)]
      (initial_world SWITCH_LOCKED 0) (by decide)).1,
   (stored_state_invariant (fun _ => ⟨.OK, 1, 254⟩)
      [(1, 1000, SWITCH_UP), (2, 1000, SWITCH_DOWN), (1, 9000, SWITCH_NEUTRAL)]
      (initial_world SWITCH_LOCKED 0) (by decide)).2.2⟩

/-! ### C21: motion only on request -/

/-- C21: for a channel in `1..4`, whatever is stored, whatever the clock reads and
whatever raw value is passed (also one outside Up, Down and Neutral), one call of
`adjust_switch_state` issues at most one command, hence at most one shutter command;
a shutter Up command (opcode 2 to device `0x21`) is issued only if the raw value is
Up, a shutter Down command (opcode 3) only if the raw value is Down. -/
theorem motion_only_on_request (broker : Nat → Response) (idx state : Int) (w : World)
    (_hidx : 1 ≤ idx ∧ idx ≤ 4) :
    ∃ m : List Call,
      (adjust_switch_state broker idx state w).calls = w.calls ++ m ∧
      m.length ≤ 1 ∧
      (m.filter (fun c => c.addr = I2C_ADDR_CONTROLLER)).length ≤ 1 ∧
      (∀ c ∈ m, c.addr = I2C_ADDR_CONTROLLER → c.command = 0x2 → state = SWITCH_UP) ∧
      (∀ c ∈ m, c.addr = I2C_ADDR_CONTROLLER → c.command = 0x3 → state = SWITCH_DOWN) := by
  rcases adjust_switch_state_calls broker idx state w with h | h | h | ⟨hs, h⟩ | ⟨hs, h⟩
  · exact ⟨[], by simpa using h, by simp, by simp, by simp, by simp⟩
  · exact ⟨[lock_beep], h, by simp, by simp [lock_beep, I2C_ADDR_MANUAL, I2C_ADDR_CONTROLLER],
      by simp [lock_beep, I2C_ADDR_MANUAL, I2C_ADDR_CONTROLLER],
      by simp [lock_beep, I2C_ADDR_MANUAL, I2C_ADDR_CONTROLLER]⟩
  · exact ⟨[shutter_off idx], h, by simp, by simp [shutter_off], by simp [shutter_off],
      by simp [shutter_off]⟩
  · exact ⟨[shutter_up idx], h, by simp, by simp [shutter_up], by simp [shutter_up, hs],
      by simp [shutter_up]⟩
  · exact ⟨[shutter_down idx], h, by simp, by simp [shutter_down], by simp [shutter_down],
      by simp [shutter_down, hs]⟩

/-- Witness for `motion_only_on_request`: channel 1 stored Neutral since time 0,
polled at 1000 ms with the raw value 7. -/
theorem motion_only_on_request_witness :
    ∃ m : List Call,
      (adjust_switch_state (fun _ => ⟨.I2C, 7, 0⟩) 1 7
          { initial_world SWITCH_NEUTRAL 0 with now := 1000 }).calls
        = ({ initial_world SWITCH_NEUTRAL 0 with now := 1000 } : World).calls ++ m ∧
      m.length ≤ 1 ∧
      (m.filter (fun c => c.addr = I2C_ADDR_CONTROLLER)).length ≤ 1 ∧
      (∀ c ∈ m, c.addr = I2C_ADDR_CONTROLLER → c.command = 0x2 → (7 : Int) = SWITCH_UP) ∧
      (∀ c ∈ m, c.addr = I2C_ADDR_CONTROLLER → c.command = 0x3 → (7 : Int) = SWITCH_DOWN) :=
  motion_only_on_request (fun _ => ⟨.I2C, 7, 0⟩) 1 7
    { initial_world SWITCH_NEUTRAL 0 with now := 1000 } (by decide)

/-! ### C18: the control loop in the process -/

/-- A call of `i2cbridge_send` records no call of `I2C_command`, however it ends. -/
theorem i2cbridge_call_calls (bridge : Nat → Outcome Response) (cmd : I2CBRIDGE_CMD)
    (addr reg : Nat) (w : World) :
    (i2cbridge_call bridge cmd addr reg w).world.calls = w.calls := by
  unfold i2cbridge_call
  cases bridge w.sent.length <;> rfl

/-- The retry loop records no call of `I2C_command`, however it ends. -/
theorem I2C_while_run_calls (bridge : Nat → Outcome Response) (addr send : Nat) :
    ∀ (n : Nat) (result : Nat × Nat) (w : World),
      (I2C_while_run bridge addr send n result w).world.calls = w.calls := by
  intro n
  induction n with
  | zero => intro result w; rfl
  | succ n ih =>
    intro result w
    have hc := i2cbridge_call_calls bridge .READ16 addr send w
    rw [I2C_while_run]
    cases h : i2cbridge_call bridge .READ16 addr send w with
    | returned r w1 =>
      rw [h] at hc
      simp only
      split_ifs
      · rw [ih]; exact hc
      · exact hc
      · rw [ih]; exact hc
    | exited code w1 => rw [h] at hc; exact hc
    | pending w1 => rw [h] at hc; exact hc

/-- However a call of `I2C_command` ends, it has recorded exactly itself. -/
theorem I2C_command_run_calls (bridge : Nat → Outcome Response) (addr command data : Int)
    (w : World) :
    (I2C_command_run bridge addr command data w).world.calls
      = w.calls ++ [⟨addr, command, data⟩] := by
  unfold I2C_command_run
  simp only
  split_ifs
  · rfl
  · rfl
  · have hc := I2C_while_run_calls bridge (addr % 256).toNat (I2C_encode command data) (20 - 1)
      (0, 0) { w with calls := w.calls ++ [⟨addr, command, data⟩] }
    cases h : I2C_while_run bridge (addr % 256).toNat (I2C_encode command data) (20 - 1)
      (0, 0) { w with calls := w.calls ++ [⟨addr, command, data⟩] } with
    | returned r w1 =>
      rw [h] at hc
      simp only [Run.bind, Run.world] at hc ⊢
      split_ifs <;> simpa [printf] using hc
    | exited code w1 => rw [h] at hc; exact hc
    | pending w1 => rw [h] at hc; exact hc

/-- Sequencing two parts of the program that add no all-stop command. -/
theorem bind_no_all_stop {α β : Type} (r : Run α) (f : α → World → Run β) (w : World)
    (h1 : ∃ m, r.world.calls = w.calls ++ m ∧ all_stop ∉ m)
    (h2 : ∀ a w1, ∃ m, (f a w1).world.calls = w1.calls ++ m ∧ all_stop ∉ m) :
    ∃ m, (r.bind f).world.calls = w.calls ++ m ∧ all_stop ∉ m := by
  cases r with
  | returned a w1 => exact no_all_stop_trans _ _ _ h1 (h2 a w1)
  | exited code w1 => exact h1
  | pending w1 => exact h1

/-- Returning adds no command. -/
theorem returned_no_all_stop {α : Type} (a : α) (w : World) :
    ∃ m, (Run.returned a w).world.calls = w.calls ++ m ∧ all_stop ∉ m :=
  ⟨[], by simp [Run.world], by simp⟩

/-- A call of `I2C_command` with an opcode other than 0 adds one call that is not the
all-stop command, however it ends. -/
theorem I2C_command_run_no_all_stop (bridge : Nat → Outcome Response)
    (addr command data : Int) (w : World) (h : command ≠ 0) :
    ∃ m, (I2C_command_run bridge addr command data w).world.calls = w.calls ++ m ∧
      all_stop ∉ m := by
  refine ⟨[⟨addr, command, data⟩], I2C_command_run_calls bridge addr command data w, ?_⟩
  simp only [List.mem_singleton, all_stop]
  intro e
  injection e with _ e2 _
  exact h e2.symm

/-- A call of `set_shutter_state` adds no all-stop command, however it ends. -/
theorem set_shutter_state_run_no_all_stop (bridge : Nat → Outcome Response)
    (idx state : Int) (w : World) :
    ∃ m, (set_shutter_state_run bridge idx state w).world.calls = w.calls ++ m ∧
      all_stop ∉ m := by
  unfold set_shutter_state_run
  split_ifs
  · exact returned_no_all_stop _ w
  · exact returned_no_all_stop _ w
  · exact bind_no_all_stop _ _ w (I2C_command_run_no_all_stop bridge _ _ _ w (by decide))
      (fun _ w1 => returned_no_all_stop _ w1)
  · exact bind_no_all_stop _ _ w (I2C_command_run_no_all_stop bridge _ _ _ w (by decide))
      (fun _ w1 => returned_no_all_stop _ w1)
  · exact bind_no_all_stop _ _ w (I2C_command_run_no_all_stop bridge _ _ _ w (by decide))
      (fun _ w1 => returned_no_all_stop _ w1)
  · exact ⟨[], by simp [Run.world, printf], by simp⟩

/-- A call of `adjust_switch_state` adds no all-stop command, however it ends. -/
theorem adjust_switch_state_run_no_all_stop (bridge : Nat → Outcome Response)
    (idx state : Int) (w : World) :
    ∃ m, (adjust_switch_state_run bridge idx state w).world.calls = w.calls ++ m ∧
      all_stop ∉ m := by
  have hstore : ∀ (i s : Int) (w1 : World), ∃ m,
      (Run.returned () (store_switch_state i s w1).2).world.calls = w1.calls ++ m ∧
        all_stop ∉ m := fun i s w1 =>
    ⟨[], by simp [Run.world, (store_switch_state_frame i s w1).2.1], by simp⟩
  have hset : ∀ (st : Int) (p : Printed), ∃ m,
      (set_shutter_state_run bridge idx st
        (printf p (store_switch_state idx state w).2)).world.calls = w.calls ++ m ∧
        all_stop ∉ m := fun st p =>
    no_all_stop_trans _ _ _
      ⟨[], by simp [printf, (store_switch_state_frame idx state w).2.1], by simp⟩
      (set_shutter_state_run_no_all_stop bridge idx st _)
  have hcommit : ∀ e : Int, ∃ m,
      (adjust_switch_state_commit_run bridge idx state e w).world.calls = w.calls ++ m ∧
        all_stop ∉ m := by
    intro e
    unfold adjust_switch_state_commit_run
    simp only
    split_ifs
    · exact bind_no_all_stop _ _ w (hset _ _) (fun _ w1 => hstore _ _ w1)
    · exact bind_no_all_stop _ _ w (hset _ _) (fun _ w1 => returned_no_all_stop _ w1)
    · exact bind_no_all_stop _ _ w (hset _ _) (fun _ w1 => returned_no_all_stop _ w1)
    · exact bind_no_all_stop _ _ w (hset _ _) (fun _ w1 => returned_no_all_stop _ w1)
    · exact ⟨[], by simp [Run.world, printf, (store_switch_state_frame idx state w).2.1],
        by simp⟩
    · exact ⟨[], by simp [Run.world, (store_switch_state_frame idx state w).2.1], by simp⟩
  unfold adjust_switch_state_run
  simp only
  split_ifs
  · exact returned_no_all_stop _ w
  · unfold beep_run
    exact bind_no_all_stop _ _ w
      (no_all_stop_trans _ _ _ ⟨[], by simp [printf], by simp⟩
        (I2C_command_run_no_all_stop bridge _ _ _ _ (by decide)))
      (fun _ w1 => returned_no_all_stop _ w1)
  · exact hcommit _
  · exact hcommit _

/-- One channel of one tick adds no all-stop command, however it ends. -/
theorem main_poll_no_all_stop (bridge : Nat → Outcome Response) (clock : Nat → Int → Int)
    (i : Nat) (idx : Int) (w : World) :
    ∃ m, (main_poll bridge clock i idx w).world.calls = w.calls ++ m ∧ all_stop ∉ m := by
  unfold main_poll
  refine bind_no_all_stop _ _ w ?_ (fun sw w1 => ?_)
  · unfold read_switch_state_run
    split_ifs
    · exact returned_no_all_stop _ w
    · exact bind_no_all_stop _ _ w (I2C_command_run_no_all_stop bridge _ _ _ w (by decide))
        (fun _ w1 => returned_no_all_stop _ w1)
  · exact no_all_stop_trans _ _ _ ⟨[], by simp [printf], by simp⟩
      (adjust_switch_state_run_no_all_stop bridge idx sw _)

/-- The channels of one tick add no all-stop command, however the tick ends. -/
theorem main_polls_no_all_stop (bridge : Nat → Outcome Response) (clock : Nat → Int → Int)
    (i : Nat) :
    ∀ (idxs : List Int) (w : World),
      ∃ m, (main_polls bridge clock i idxs w).world.calls = w.calls ++ m ∧ all_stop ∉ m := by
  intro idxs
  induction idxs with
  | nil => intro w; exact returned_no_all_stop _ w
  | cons idx idxs ih =>
    intro w
    rw [main_polls]
    exact bind_no_all_stop _ _ w (main_poll_no_all_stop bridge clock i idx w)
      (fun _ w1 => ih w1)

/-- One tick adds no all-stop command, however it ends. -/
theorem main_tick_no_all_stop (bridge : Nat → Outcome Response) (clock : Nat → Int → Int)
    (i : Nat) (w : World) :
    ∃ m, (main_tick bridge clock i w).world.calls = w.calls ++ m ∧ all_stop ∉ m := by
  unfold main_tick get_manual_mode_run
  simp only
  refine bind_no_all_stop _ _ w ?_ (fun manual w1 => ?_)
  · exact bind_no_all_stop _ _ w
      (no_all_stop_trans _ _ _ ⟨[], by simp [printf], by simp⟩
        (I2C_command_run_no_all_stop bridge _ _ _ _ (by decide)))
      (fun _ w1 => returned_no_all_stop _ w1)
  · refine bind_no_all_stop _ _ w1 ?_ (fun _ w2 => ?_)
    · unfold set_manual_mode_led_run
      split_ifs
      · exact bind_no_all_stop _ _ w1
          (no_all_stop_trans _ _ _ ⟨[], by simp [printf], by simp⟩
            (I2C_command_run_no_all_stop bridge _ _ _ _ (by decide)))
          (fun _ w3 => returned_no_all_stop _ w3)
      · exact bind_no_all_stop _ _ w1
          (no_all_stop_trans _ _ _ ⟨[], by simp [printf], by simp⟩
            (I2C_command_run_no_all_stop bridge _ _ _ _ (by decide)))
          (fun _ w3 => returned_no_all_stop _ w3)
    · refine bind_no_all_stop _ _ w2 (main_polls_no_all_stop bridge clock i _ w2)
        (fun _ w3 => ?_)
      unfold I3C_reset_manual_run
      exact bind_no_all_stop _ _ w3 (I2C_command_run_no_all_stop bridge _ _ _ w3 (by decide))
        (fun _ w4 => returned_no_all_stop _ w4)

/-- The loop of `main` adds no all-stop command, however it ends. -/
theorem main_loop_no_all_stop (bridge : Nat → Outcome Response) (clock : Nat → Int → Int) :
    ∀ (sleeps : List Int) (i : Nat) (w : World),
      ∃ m, (main_loop bridge clock sleeps i w).world.calls = w.calls ++ m ∧ all_stop ∉ m := by
  intro sleeps
  induction sleeps with
  | nil => intro i w; exact ⟨[], by simp [main_loop, Run.world], by simp⟩
  | cons s sleeps ih =>
    intro i w
    have ht := main_tick_no_all_stop bridge clock i w
    rw [main_loop]
    cases h : main_tick bridge clock i w with
    | returned u w1 =>
      rw [h] at ht
      simp only
      split_ifs
      · exact ht
      · exact no_all_stop_trans _ _ _ ht (ih (i + 1) w1)
    | exited code w1 => rw [h] at ht; exact ht
    | pending w1 => rw [h] at ht; exact ht

/-! ### The process when every call of `i2cbridge_send` returns -/

/-- When every call of `i2cbridge_send` returns, the retry loop in the process is
the loop `I2C_while`. -/
theorem I2C_while_run_eq (bridge : Nat → Outcome Response) (broker : Nat → Response)
    (hb : ∀ k, bridge k = .returned (broker k)) (addr send : Nat) :
    ∀ (n : Nat) (result : Nat × Nat) (w : World),
      I2C_while_run bridge addr send n result w =
        .returned ((I2C_while broker addr send n result w).1,
          (I2C_while broker addr send n result w).2.1)
          (I2C_while broker addr send n result w).2.2 := by
  intro n
  induction n with
  | zero => intro result w; rfl
  | succ n ih =>
    intro result w
    rw [I2C_while_run, I2C_while]
    simp only [i2cbridge_call, hb, i2cbridge_transaction]
    split_ifs
    · exact ih _ _
    · rfl
    · exact ih _ _

/-- When every call of `i2cbridge_send` returns, `I2C_command` in the process
returns what `I2C_command` gives. -/
theorem I2C_command_run_eq (bridge : Nat → Outcome Response) (broker : Nat → Response)
    (hb : ∀ k, bridge k = .returned (broker k)) (addr command data : Int) (w : World) :
    I2C_command_run bridge addr command data w =
      .returned (I2C_command broker addr command data w).1
        (I2C_command broker addr command data w).2 := by
  unfold I2C_command_run I2C_command
  simp only [I2C_while_run_eq bridge broker hb, Run.bind]
  split_ifs <;> rfl

/-- When every call of `i2cbridge_send` returns, `set_shutter_state` in the process
returns what `set_shutter_state` gives. -/
theorem set_shutter_state_run_eq (bridge : Nat → Outcome Response) (broker : Nat → Response)
    (hb : ∀ k, bridge k = .returned (broker k)) (idx state : Int) (w : World) :
    set_shutter_state_run bridge idx state w =
      .returned (set_shutter_state broker idx state w).1
        (set_shutter_state broker idx state w).2 := by
  unfold set_shutter_state_run set_shutter_state
  simp only [I2C_command_run_eq bridge broker hb, Run.bind, SHUTTER_OFF, SHUTTER_UP,
    SHUTTER_DOWN]
  split_ifs
  · rfl
  · rfl
  · rfl
  · rfl
  · rfl
  · omega

/-- When every call of `i2cbridge_send` returns, `adjust_switch_state` in the process
returns, with the world `adjust_switch_state` gives. -/
theorem adjust_switch_state_run_eq (bridge : Nat → Outcome Response)
    (broker : Nat → Response) (hb : ∀ k, bridge k = .returned (broker k)) (idx state : Int)
    (w : World) :
    adjust_switch_state_run bridge idx state w =
      .returned () (adjust_switch_state broker idx state w) := by
  have hcommit : ∀ e : Int, adjust_switch_state_commit_run bridge idx state e w =
      .returned () (adjust_switch_state_commit broker idx state e w) := by
    intro e
    unfold adjust_switch_state_commit_run adjust_switch_state_commit
    simp only [set_shutter_state_run_eq bridge broker hb, Run.bind]
    split_ifs <;> rfl
  unfold adjust_switch_state_run adjust_switch_state
  simp only [hcommit, beep_run, beep, I2C_command_run_eq bridge broker hb, Run.bind]
  split_ifs <;> rfl

/-- Sequencing two parts of the program that return. -/
theorem bind_returns {α β : Type} (r : Run α) (f : α → World → Run β)
    (h1 : ∃ a w1, r = .returned a w1) (h2 : ∀ a w1, ∃ b w2, f a w1 = .returned b w2) :
    ∃ b w2, r.bind f = .returned b w2 := by
  obtain ⟨a, w1, e⟩ := h1
  rw [e]
  exact h2 a w1

/-- When every call of `i2cbridge_send` returns, every tick of `main` returns. -/
theorem main_tick_returns (bridge : Nat → Outcome Response) (broker : Nat → Response)
    (hb : ∀ k, bridge k = .returned (broker k)) (clock : Nat → Int → Int) (i : Nat)
    (w : World) : ∃ u w2, main_tick bridge clock i w = .returned u w2 := by
  have hcmd : ∀ (a c d : Int) (w1 : World),
      ∃ r w2, I2C_command_run bridge a c d w1 = .returned r w2 := fun a c d w1 =>
    ⟨_, _, I2C_command_run_eq bridge broker hb a c d w1⟩
  have hpoll : ∀ (idx : Int) (w1 : World),
      ∃ u w2, main_poll bridge clock i idx w1 = .returned u w2 := by
    intro idx w1
    unfold main_poll
    refine bind_returns _ _ ?_ (fun sw w2 => ⟨_, _, adjust_switch_state_run_eq bridge broker hb _ _ _⟩)
    unfold read_switch_state_run
    split_ifs
    · exact ⟨_, _, rfl⟩
    · exact bind_returns _ _ (hcmd _ _ _ _) (fun _ _ => ⟨_, _, rfl⟩)
  have hpolls : ∀ (idxs : List Int) (w1 : World),
      ∃ u w2, main_polls bridge clock i idxs w1 = .returned u w2 := by
    intro idxs
    induction idxs with
    | nil => intro w1; exact ⟨_, _, rfl⟩
    | cons idx idxs ih =>
      intro w1
      rw [main_polls]
      exact bind_returns _ _ (hpoll idx w1) (fun _ w2 => ih w2)
  unfold main_tick
  simp only
  refine bind_returns _ _ ?_ (fun manual w1 => ?_)
  · unfold get_manual_mode_run
    exact bind_returns _ _ (hcmd _ _ _ _) (fun _ _ => ⟨_, _, rfl⟩)
  · refine bind_returns _ _ ?_ (fun _ w2 => ?_)
    · unfold set_manual_mode_led_run
      split_ifs
      · exact bind_returns _ _ (hcmd _ _ _ _) (fun _ _ => ⟨_, _, rfl⟩)
      · exact bind_returns _ _ (hcmd _ _ _ _) (fun _ _ => ⟨_, _, rfl⟩)
    · refine bind_returns _ _ (hpolls _ w2) (fun _ w3 => ?_)
      unfold I3C_reset_manual_run
      exact bind_returns _ _ (hcmd _ _ _ _) (fun _ _ => ⟨_, _, rfl⟩)

/-- When every call of `i2cbridge_send` returns, the loop of `main` is left at the
first `sleep(1)` that returns a non-zero value. -/
theorem main_loop_returns (bridge : Nat → Outcome Response) (broker : Nat → Response)
    (hb : ∀ k, bridge k = .returned (broker k)) (clock : Nat → Int → Int) (s : Int)
    (rest : List Int) (hs : s ≠ 0) :
    ∀ (n i : Nat) (w : World),
      ∃ u w2, main_loop bridge clock (List.replicate n 0 ++ s :: rest) i w
        = .returned u w2 := by
  intro n
  induction n with
  | zero =>
    intro i w
    obtain ⟨u, w1, h1⟩ := main_tick_returns bridge broker hb clock i w
    simp only [List.replicate_zero, List.nil_append]
    rw [main_loop, h1]
    simp only [hs, ne_eq, not_false_eq_true, if_true]
    exact ⟨_, _, rfl⟩
  | succ n ih =>
    intro i w
    obtain ⟨u, w1, h1⟩ := main_tick_returns bridge broker hb clock i w
    simp only [List.replicate_succ, List.cons_append]
    rw [main_loop, h1]
    simp only [ne_eq, not_true_eq_false, if_false]
    exact ih _ _

/-- Sequencing is associative. -/
theorem bind_assoc {α β γ : Type} (r : Run α) (f : α → World → Run β)
    (g : β → World → Run γ) :
    (r.bind f).bind g = r.bind (fun a w => (f a w).bind g) := by
  cases r <;> rfl

/-- Sequencing after a part of the program whose calls are known up to commands
other than all-stop. -/
theorem bind_no_all_stop_from {α β : Type} (base : List Call) (r : Run α)
    (f : α → World → Run β)
    (h1 : ∃ m, r.world.calls = base ++ m ∧ all_stop ∉ m)
    (h2 : ∀ a w1, ∃ m, (f a w1).world.calls = w1.calls ++ m ∧ all_stop ∉ m) :
    ∃ m, (r.bind f).world.calls = base ++ m ∧ all_stop ∉ m := by
  cases r with
  | returned a w1 => exact no_all_stop_trans _ _ _ h1 (h2 a w1)
  | exited code w1 => exact h1
  | pending w1 => exact h1

/-- However `stop_all_shutters` ends, it has recorded the all-stop command. -/
theorem stop_all_shutters_run_calls (bridge : Nat → Outcome Response) (w : World) :
    (stop_all_shutters_run bridge w).world.calls = w.calls ++ [all_stop] := by
  have h := I2C_command_run_calls bridge I2C_ADDR_CONTROLLER 0x0 0x0 w
  unfold stop_all_shutters_run
  cases hr : I2C_command_run bridge I2C_ADDR_CONTROLLER 0x0 0x0 w <;>
    rw [hr] at h <;> exact h

/-- C18 (the claim fails as stated): the connection is set up, the first 76 calls of
`i2cbridge_send` return and the next one ends the process in a failed reconnect.
That call belongs to `get_manual_mode()` in the first tick: `main` ends with
`exit(-1)` and the last command it has issued is not the all-stop command. -/
theorem main_exit_without_final_all_stop :
    (∃ w2, main (fun k => if k < 76 then .returned ⟨.OK, 1, 254⟩ else .exited (-1))
        (fun i _ => 1000 * (i + 1)) ⟨[true], [true], [], []⟩ 0 [0, 1]
        (initial_world SWITCH_NEUTRAL 0) = .exited (-1) w2) ∧
    (main (fun k => if k < 76 then .returned ⟨.OK, 1, 254⟩ else .exited (-1))
        (fun i _ => 1000 * (i + 1)) ⟨[true], [true], [], []⟩ 0 [0, 1]
        (initial_world SWITCH_NEUTRAL 0)).world.calls
      = [all_stop, ⟨0x22, 1, 5⟩, ⟨0x22, 2, 2⟩, ⟨0x22, 2, 0⟩, ⟨0x22, 5, 0⟩] := by
  constructor
  · exact ⟨_, rfl⟩
  · rfl

/-- C18 (amended): in every run of `main` whose initial `i2cbridge_init` succeeds,
whatever the calls of `i2cbridge_send` do and whatever the clock reads, the first
command issued is the all-stop command (opcode 0, operand 0, device `0x21`), and the
all-stop command is issued once more only by the `stop_all_shutters` call after the
loop, as the last command; when `main` returns, it returns 0 and the commands issued
are all-stop first, all-stop last and none in between.  When every call of
`i2cbridge_send` returns and the `sleep(1)` at the end of a tick returns 0 `n` times
and then a non-zero value, `main` does return. -/
theorem main_all_stop_first_and_last (bridge : Nat → Outcome Response)
    (clock : Nat → Int → Int) (l : Link) (t0 : Int) (sleeps : List Int) (w : World)
    (p : List Bool × List Bool) (hl : i2cbridge_init l.sockets l.connects = .returned p) :
    (∃ m : List Call, (⟨0x21, 0, 0⟩ : Call) ∉ m ∧
      ((main bridge clock l t0 sleeps w).world.calls
          = w.calls ++ [⟨0x21, 0, 0⟩] ++ m ++ [⟨0x21, 0, 0⟩] ∨
        (main bridge clock l t0 sleeps w).world.calls = w.calls ++ [⟨0x21, 0, 0⟩] ++ m) ∧
      ∀ c w2, main bridge clock l t0 sleeps w = .returned c w2 →
        c = 0 ∧ w2.calls = w.calls ++ [⟨0x21, 0, 0⟩] ++ m ++ [⟨0x21, 0, 0⟩]) ∧
    (∀ (broker : Nat → Response) (n : Nat) (s : Int) (rest : List Int),
      (∀ k, bridge k = .returned (broker k)) → sleeps = List.replicate n 0 ++ s :: rest →
      s ≠ 0 → ∃ w2, main bridge clock l t0 sleeps w = .returned 0 w2) := by
  constructor
  · have hpre : ∃ m, ((stop_all_shutters_run bridge w).bind fun _ w =>
        (beep_run bridge 0x05 (clear_stored_switch_state { w with now := t0 })).bind fun _ w =>
        (set_manual_mode_led_run bridge LED_PATTERN_FAST w).bind fun _ w =>
        (set_manual_mode_led_run bridge LED_PATTERN_OFF w).bind fun _ w =>
        main_loop bridge clock sleeps 0 w).world.calls = (w.calls ++ [all_stop]) ++ m ∧
        all_stop ∉ m := by
      refine bind_no_all_stop_from _ _ _
        ⟨[], by simp [stop_all_shutters_run_calls], by simp⟩ (fun _ w1 => ?_)
      refine bind_no_all_stop _ _ w1 ?_ (fun _ w2 => ?_)
      · unfold beep_run
        exact bind_no_all_stop _ _ w1
          (no_all_stop_trans _ _ _ ⟨[], by simp [clear_stored_switch_state], by simp⟩
            (I2C_command_run_no_all_stop bridge _ _ _ _ (by decide)))
          (fun _ w3 => returned_no_all_stop _ w3)
      · refine bind_no_all_stop _ _ w2 ?_ (fun _ w3 => ?_)
        · unfold set_manual_mode_led_run
          exact bind_no_all_stop _ _ w2 (I2C_command_run_no_all_stop bridge _ _ _ w2 (by decide))
            (fun _ w4 => returned_no_all_stop _ w4)
        · refine bind_no_all_stop _ _ w3 ?_ (fun _ w4 => main_loop_no_all_stop bridge clock _ _ w4)
          unfold set_manual_mode_led_run
          exact bind_no_all_stop _ _ w3 (I2C_command_run_no_all_stop bridge _ _ _ w3 (by decide))
            (fun _ w5 => returned_no_all_stop _ w5)
    have hmain : main bridge clock l t0 sleeps w =
        ((stop_all_shutters_run bridge w).bind fun _ w =>
          (beep_run bridge 0x05 (clear_stored_switch_state { w with now := t0 })).bind fun _ w =>
          (set_manual_mode_led_run bridge LED_PATTERN_FAST w).bind fun _ w =>
          (set_manual_mode_led_run bridge LED_PATTERN_OFF w).bind fun _ w =>
          main_loop bridge clock sleeps 0 w).bind
          (fun _ w => (stop_all_shutters_run bridge w).bind fun _ w => .returned 0 w) := by
      unfold main
      rw [hl]
      simp only [bind_assoc]
    obtain ⟨m, hm, hnot⟩ := hpre
    refine ⟨m, hnot, ?_⟩
    rw [hmain]
    have e : (⟨0x21, 0, 0⟩ : Call) = all_stop := rfl
    rw [e]
    cases hr : ((stop_all_shutters_run bridge w).bind fun _ w =>
        (beep_run bridge 0x05 (clear_stored_switch_state { w with now := t0 })).bind fun _ w =>
        (set_manual_mode_led_run bridge LED_PATTERN_FAST w).bind fun _ w =>
        (set_manual_mode_led_run bridge LED_PATTERN_OFF w).bind fun _ w =>
        main_loop bridge clock sleeps 0 w) with
    | returned u w1 =>
      rw [hr] at hm
      have hfin : ((Run.returned u w1).bind fun _ w =>
          (stop_all_shutters_run bridge w).bind fun _ w => Run.returned (0 : Int) w).world.calls
          = w.calls ++ [all_stop] ++ m ++ [all_stop] := by
        have hs := stop_all_shutters_run_calls bridge w1
        simp only [Run.bind]
        cases hq : stop_all_shutters_run bridge w1 <;> rw [hq] at hs <;>
          simp only [Run.world] at hs hm ⊢ <;> rw [hs, hm]
      refine ⟨Or.inl hfin, fun c w2 hc => ?_⟩
      rw [hc] at hfin
      refine ⟨?_, hfin⟩
      simp only [Run.bind] at hc
      cases hq : stop_all_shutters_run bridge w1 <;> rw [hq] at hc <;> simp at hc
      exact hc.1.symm
    | exited code w1 =>
      rw [hr] at hm
      exact ⟨Or.inr hm, fun c w2 hc => by simp [Run.bind] at hc⟩
    | pending w1 =>
      rw [hr] at hm
      exact ⟨Or.inr hm, fun c w2 hc => by simp [Run.bind] at hc⟩
  · intro broker n s rest hb hsl hs
    have hcmd : ∀ (a c d : Int) (w1 : World),
        ∃ r w2, I2C_command_run bridge a c d w1 = .returned r w2 := fun a c d w1 =>
      ⟨_, _, I2C_command_run_eq bridge broker hb a c d w1⟩
    have hunit : ∀ (a c d : Int) (w1 : World), ∃ (u : Unit) (w2 : World),
        ((I2C_command_run bridge a c d w1).bind fun _ w => Run.returned () w)
          = .returned u w2 := fun a c d w1 =>
      bind_returns _ _ (hcmd a c d w1) (fun _ _ => ⟨_, _, rfl⟩)
    subst hsl
    unfold main
    rw [hl]
    simp only
    have h : ∃ (c : Int) (w2 : World), ((stop_all_shutters_run bridge w).bind fun _ w =>
        (beep_run bridge 0x05 (clear_stored_switch_state { w with now := t0 })).bind fun _ w =>
        (set_manual_mode_led_run bridge LED_PATTERN_FAST w).bind fun _ w =>
        (set_manual_mode_led_run bridge LED_PATTERN_OFF w).bind fun _ w =>
        (main_loop bridge clock (List.replicate n 0 ++ s :: rest) 0 w).bind fun _ w =>
        (stop_all_shutters_run bridge w).bind fun _ w => Run.returned (0 : Int) w)
        = .returned c w2 ∧ c = 0 := by
      unfold stop_all_shutters_run beep_run set_manual_mode_led_run
      obtain ⟨u1, w1, h1⟩ := hunit I2C_ADDR_CONTROLLER 0 0 w
      rw [h1]
      simp only [Run.bind]
      obtain ⟨u2, w2, h2⟩ := hcmd I2C_ADDR_MANUAL 1 (5 % 16)
        (clear_stored_switch_state { w1 with now := t0 })
      rw [h2]
      simp only
      obtain ⟨u3, w3, h3⟩ := hcmd I2C_ADDR_MANUAL 2 LED_PATTERN_FAST w2
      rw [h3]
      simp only
      obtain ⟨u4, w4, h4⟩ := hcmd I2C_ADDR_MANUAL 2 LED_PATTERN_OFF w3
      rw [h4]
      simp only
      obtain ⟨u5, w5, h5⟩ := main_loop_returns bridge broker hb clock s rest hs n 0 w4
      rw [h5]
      simp only
      obtain ⟨u6, w6, h6⟩ := hcmd I2C_ADDR_CONTROLLER 0 0 w5
      rw [h6]
      exact ⟨0, w6, rfl, rfl⟩
    obtain ⟨c, w2, h2, hc⟩ := h
    subst hc
    exact ⟨w2, h2⟩

/-- Witness for `main_all_stop_first_and_last`: the connection is set up, every call
of `i2cbridge_send` returns and the second `sleep(1)` of the loop is interrupted. -/
theorem main_all_stop_first_and_last_witness :
    ∃ w2, main (fun _ => .returned ⟨.OK, 1, 254⟩) (fun i _ => 1000 * i)
        ⟨[true], [true], [], []⟩ 0 [0, 1] (initial_world SWITCH_NEUTRAL 0) = .returned 0 w2 :=
  (main_all_stop_first_and_last (fun _ => .returned ⟨.OK, 1, 254⟩) (fun i _ => 1000 * i)
    ⟨[true], [true], [], []⟩ 0 [0, 1] (initial_world SWITCH_NEUTRAL 0) ([], [])
    (by decide)).2 (fun _ => ⟨.OK, 1, 254⟩) 1 1 [] (fun _ => rfl) rfl (by decide)

end Shutter
